import Mathlib

/- Verification of the ADI stack of oxidecomputer/probe-rs: a shallow
   embedding of the Cortex-M core control layer (m4.rs), the DP/AP
   register-selection layer (communication_interface.rs) and the flash
   HEX-record driver (flash_writer.rs), with theorems about the claims
   of the specification.

   Registers are 32-bit machine words embedded as Nat; bitfield accesses
   use the helpers below, which mirror the semantics of the bitfield
   crate (a field set truncates the value to the field width). -/

set_option maxHeartbeats 1000000

namespace ProbeRs

/-- Read the field of width `w` starting at bit `lo` of the 32-bit register
value `v` (bitfield crate getter: `(v >> lo) & mask`). -/
def bfGet (v lo w : Nat) : Nat := (v >>> lo) &&& (2 ^ w - 1)

/-- Write the field of width `w` starting at bit `lo` of the 32-bit register
value `v` (bitfield crate setter: clear the field, then or in the truncated
value). -/
def bfSet (v lo w x : Nat) : Nat :=
  (v &&& (0xFFFFFFFF ^^^ ((2 ^ w - 1) <<< lo))) ||| ((x &&& (2 ^ w - 1)) <<< lo)

/- ### m4.rs: core debug registers -/

/-- m4.rs: `Dhcsr::ADDRESS`. -/
def Dhcsr.ADDRESS : Nat := 0xE000EDF0

/-- m4.rs: `Dcrsr::ADDRESS`. -/
def Dcrsr.ADDRESS : Nat := 0xE000EDF4

/-- m4.rs: `Dcrdr::ADDRESS`. -/
def Dcrdr.ADDRESS : Nat := 0xE000EDF8

/-- m4.rs: `Aircr::ADDRESS`. -/
def Aircr.ADDRESS : Nat := 0xE000ED0C

/-- m4.rs: `Demcr::ADDRESS`. -/
def Demcr.ADDRESS : Nat := 0xE000EDFC

/-- Modelled from the spec: `Dfsr` lives in arm/core/mod.rs, which is not in
src/; the spec (section 6) lists DFSR among the Cortex-M debug registers.
Its architectural address 0xE000ED30 is used here; no claim depends on the
numeric value, only on it being distinct from the other debug registers. -/
def Dfsr.ADDRESS : Nat := 0xE000ED30

/-- m4.rs: `FpCtrl::ADDRESS` (FP_CTRL). -/
def FpCtrl.ADDRESS : Nat := 0xE0002000

/-- m4.rs: `FpRev1CompX::ADDRESS` (first FP comparator). -/
def FpRev1CompX.ADDRESS : Nat := 0xE0002008

/-- m4.rs bitfield `Dhcsr`: `s_sleep` is bit 18. -/
def Dhcsr.s_sleep (v : Nat) : Bool := v.testBit 18

/-- m4.rs bitfield `Dhcsr`: `s_halt` is bit 17. -/
def Dhcsr.s_halt (v : Nat) : Bool := v.testBit 17

/-- m4.rs bitfield `Dhcsr`: `s_regrdy` is bit 16. -/
def Dhcsr.s_regrdy (v : Nat) : Bool := v.testBit 16

/-- m4.rs bitfield `Dhcsr`: `c_debugen` is bit 0. -/
def Dhcsr.c_debugen (v : Nat) : Bool := v.testBit 0

/-- m4.rs `Dhcsr::enable_write`: clear bits 31:16, then set the debug key
0xA05F in bits 31:16. -/
def Dhcsr.enable_write (v : Nat) : Nat := (v &&& 0xFFFF) ||| (0xA05F <<< 16)

/-- m4.rs bitfield `Demcr`: `vc_corereset` is bit 0. -/
def Demcr.vc_corereset (v : Nat) : Bool := v.testBit 0

/-- m4.rs bitfield `FpCtrl`: `rev` is bits 31:28. -/
def FpCtrl.rev (v : Nat) : Nat := bfGet v 28 4

/-- m4.rs bitfield `FpRev1CompX`: `replace` is bits 31:30. -/
def FpRev1CompX.replace (v : Nat) : Nat := bfGet v 30 2

/-- m4.rs bitfield `FpRev1CompX`: `comp` is bits 28:2. -/
def FpRev1CompX.comp (v : Nat) : Nat := bfGet v 2 27

/-- m4.rs bitfield `FpRev1CompX`: `enable` is bit 0. -/
def FpRev1CompX.enable (v : Nat) : Nat := bfGet v 0 1

/-- m4.rs `FpRev1CompX::breakpoint_configuration`: the comparator value for a
hardware breakpoint at `address` on an FPB whose FP_CTRL.REV is 0.
`comp_val = (address & 0x1fff_fffc) >> 2`; `replace_val` is 0b01 for the
lower half word (`address & 0x3 == 0`) and 0b10 for the upper half word;
the register is built from 0 by `set_replace`, `set_comp`, `set_enable`. -/
def FpRev1CompX.breakpoint_configuration (address : Nat) : Nat :=
  let comp_val := (address &&& 0x1FFFFFFC) >>> 2
  let replace_val := if address &&& 0x3 = 0 then 0b01 else 0b10
  bfSet (bfSet (bfSet 0 30 2 replace_val) 2 27 comp_val) 0 1 1

/-- m4.rs `FpRev2CompX::breakpoint_configuration`: the comparator value for a
hardware breakpoint at `address` on an FPB whose FP_CTRL.REV is 1:
`bpaddr` (bits 31:1) is `address >> 1` and `enable` (bit 0) is set. -/
def FpRev2CompX.breakpoint_configuration (address : Nat) : Nat :=
  bfSet (bfSet 0 1 31 (address >>> 1)) 0 1 1

/- ### m4.rs: core state and the halt state machine -/

/-- Modelled from the spec: `HaltReason` is defined in arm/core/mod.rs, which
is not in src/; section 4.6 of the spec lists the halt reasons
`{External, Vector, DWTTrap, BKPT, Step, Unknown}`. -/
inductive HaltReason
  | external
  | vector
  | dwtTrap
  | bkpt
  | step
  | unknown
deriving DecidableEq

/-- Modelled from the spec: `CoreStatus` is defined in core.rs, which is not
in src/; section 3 of the spec gives
`current_state : {Running, Sleeping, Halted(HaltReason), LockedUp, Unknown}`. -/
inductive CoreStatus
  | running
  | halted (reason : HaltReason)
  | lockedUp
  | sleeping
  | unknown
deriving DecidableEq

/-- `CoreStatus::is_halted`: true exactly on `Halted(_)`. -/
def CoreStatus.is_halted : CoreStatus → Bool
  | .halted _ => true
  | _ => false

/-- Modelled from the spec: `Dfsr::clear_all` is in arm/core/mod.rs, which is
not in src/; the spec says the sticky DFSR cause bits are cleared after
reading, so the written value sets all five write-one-to-clear bits. No claim
depends on this value. -/
def Dfsr.clear_all : Nat := 0b11111

/-- Modelled from the spec: `Dfsr::halt_reason` is in arm/core/mod.rs, which
is not in src/. The spec (section 4.6) says status reads DFSR to obtain a
`HaltReason` among `{External, Vector, DWTTrap, BKPT, Step, Unknown}`, and
m4.rs itself documents that a DFSR with no sticky bits set decodes to the
Unknown reason. Only the all-clear case is relied on by any claim; the
priority among set bits follows the architectural bit positions
(EXTERNAL=4, VCATCH=3, DWTTRAP=2, BKPT=1, HALTED=0). -/
def Dfsr.halt_reason (v : Nat) : HaltReason :=
  if bfGet v 0 5 = 0 then .unknown
  else if v.testBit 1 then .bkpt
  else if v.testBit 4 then .external
  else if v.testBit 2 then .dwtTrap
  else if v.testBit 3 then .vector
  else .step

/-- The errors the m4.rs core-control functions produce: a
`DebugProbeError::Timeout` wrapped with an anyhow context string, or
`DebugProbeError::Unknown` (unsupported FPB revision). -/
inductive ProbeError
  | timeout (context : String)
  | unknown
deriving DecidableEq

/-- One 32-bit access of the core-control layer on the MEM-AP memory
interface. -/
inductive MemEvent
  | read (address value : Nat)
  | write (address value : Nat)
deriving DecidableEq

/-- The address of a memory event. -/
def MemEvent.address : MemEvent → Nat
  | .read a _ => a
  | .write a _ => a

/-- The target side of the debug interface: the value returned by the n-th
read that reaches the target, per address. Status bits (DHCSR, DFSR, ...)
are controlled by the core, not the host, so reads are an oracle. -/
abbrev Oracle := Nat → Nat → Nat

/-- `CortexState` (core.rs, not in src/; fields per the spec, section 3):
the cached core state borrowed by the core-control layer. -/
structure CortexState where
  current_state : CoreStatus
  hw_breakpoints_enabled : Bool

/-- The state of the embedded M4 core-control machine: the cached
`CortexState`, the target model (core register file and the DCRDR transfer
register of the DCRSR/DCRDR handshake), the count of oracle reads served so
far, and the trace of memory events, most recent first. -/
structure M4St where
  core : CortexState
  regs : Nat → Nat
  dcrdr : Nat
  readCount : Nat
  trace : List MemEvent

/-- `Memory::read_word_32` as seen from m4.rs: a DCRDR read returns the
transfer register of the handshake model; every other address is answered
by the target oracle. -/
def read_word_32 (o : Oracle) (address : Nat) (st : M4St) : Nat × M4St :=
  if address = Dcrdr.ADDRESS then
    (st.dcrdr, { st with trace := .read address st.dcrdr :: st.trace })
  else
    let v := o st.readCount address
    (v, { st with readCount := st.readCount + 1, trace := .read address v :: st.trace })

/-- `Memory::write_word_32` as seen from m4.rs. The target side implements
the architectural DCRSR/DCRDR handshake (ARMv7-M C1.6): writing DCRSR with
REGWNR=1 copies DCRDR into the selected core register, with REGWNR=0 loads
DCRDR from it; all other writes only appear in the trace. -/
def write_word_32 (address value : Nat) (st : M4St) : M4St :=
  let st := { st with trace := .write address value :: st.trace }
  if address = Dcrdr.ADDRESS then { st with dcrdr := value }
  else if address = Dcrsr.ADDRESS then
    if value.testBit 16 then
      { st with regs := fun r => if r = bfGet value 0 7 then st.dcrdr else st.regs r }
    else
      { st with dcrdr := st.regs (bfGet value 0 7) }
  else st

/-- m4.rs `M4::status`: read DHCSR; S_SLEEP means Sleeping; S_HALT means
Halted with the reason decoded from DFSR, whose sticky bits are then
cleared, except that an Unknown fresh reason keeps the previously cached
halted state; otherwise Running. The cache is updated accordingly. -/
def status (o : Oracle) (st : M4St) : CoreStatus × M4St :=
  let p := read_word_32 o Dhcsr.ADDRESS st
  let dhcsr := p.1
  let st := p.2
  if Dhcsr.s_sleep dhcsr then
    (.sleeping, { st with core := { st.core with current_state := .sleeping } })
  else if Dhcsr.s_halt dhcsr then
    let q := read_word_32 o Dfsr.ADDRESS st
    let reason := Dfsr.halt_reason q.1
    let st := write_word_32 Dfsr.ADDRESS Dfsr.clear_all q.2
    if st.core.current_state.is_halted ∧ reason = .unknown then
      (st.core.current_state, st)
    else
      (.halted reason, { st with core := { st.core with current_state := .halted reason } })
  else
    (.running, { st with core := { st.core with current_state := .running } })

/-- The polling loop of m4.rs `M4::wait_for_core_halted`, with the remaining
iteration count explicit (the source iterates `for _ in 0..100`): read DHCSR;
on S_HALT run `status` to update the cached state and stop; after the
iterations are exhausted fail with Timeout in the context of waiting for the
halted core. -/
def wait_for_core_halted_loop (o : Oracle) : Nat → M4St → Except ProbeError Unit × M4St
  | 0, st => (.error (.timeout "Waiting for halted core"), st)
  | n + 1, st =>
    let p := read_word_32 o Dhcsr.ADDRESS st
    if Dhcsr.s_halt p.1 then
      (.ok (), (status o p.2).2)
    else
      wait_for_core_halted_loop o n p.2

/-- m4.rs `M4::wait_for_core_halted`: the polling loop with 100 iterations. -/
def wait_for_core_halted (o : Oracle) (st : M4St) : Except ProbeError Unit × M4St :=
  wait_for_core_halted_loop o 100 st

/-- The polling loop of m4.rs `M4::wait_for_core_register_transfer`: read
DHCSR until S_REGRDY, at most the given number of iterations, then fail with
Timeout in the context "Waiting for core register transfer". -/
def wait_for_core_register_transfer_loop (o : Oracle) :
    Nat → M4St → Except ProbeError Unit × M4St
  | 0, st => (.error (.timeout "Waiting for core register transfer"), st)
  | n + 1, st =>
    let p := read_word_32 o Dhcsr.ADDRESS st
    if Dhcsr.s_regrdy p.1 then
      (.ok (), p.2)
    else
      wait_for_core_register_transfer_loop o n p.2

/-- m4.rs `M4::wait_for_core_register_transfer`: the polling loop with 100
iterations. -/
def wait_for_core_register_transfer (o : Oracle) (st : M4St) :
    Except ProbeError Unit × M4St :=
  wait_for_core_register_transfer_loop o 100 st

/-- m4.rs `M4::read_core_reg`: write DCRSR with REGWNR=0 and REGSEL=addr,
wait for the transfer, then read DCRDR. -/
def read_core_reg (o : Oracle) (addr : Nat) (st : M4St) : Except ProbeError Nat × M4St :=
  let dcrsr_val := bfSet (bfSet 0 16 1 0) 0 7 addr
  let st := write_word_32 Dcrsr.ADDRESS dcrsr_val st
  match wait_for_core_register_transfer o st with
  | (.ok _, st) =>
    let p := read_word_32 o Dcrdr.ADDRESS st
    (.ok p.1, p.2)
  | (.error e, st) => (.error e, st)

/-- m4.rs `M4::write_core_reg`: write DCRDR with the value, write DCRSR with
REGWNR=1 and REGSEL=addr, then wait for the transfer. -/
def write_core_reg (o : Oracle) (addr value : Nat) (st : M4St) :
    Except ProbeError Unit × M4St :=
  let st := write_word_32 Dcrdr.ADDRESS value st
  let dcrsr_val := bfSet (bfSet 0 16 1 1) 0 7 addr
  let st := write_word_32 Dcrsr.ADDRESS dcrsr_val st
  wait_for_core_register_transfer o st

/-- m4.rs `M4::run`: write DHCSR with C_HALT=0, C_DEBUGEN=1 and the debug
key, then optimistically set the cached state to Running; no DHCSR read is
performed. -/
def run (st : M4St) : M4St :=
  let value := Dhcsr.enable_write (bfSet (bfSet 0 1 1 0) 0 1 1)
  let st := write_word_32 Dhcsr.ADDRESS value st
  { st with core := { st.core with current_state := .running } }

/-- m4.rs `M4::reset`: write AIRCR with VECTKEY=0x05FA and SYSRESETREQ=1. -/
def reset (st : M4St) : M4St :=
  write_word_32 Aircr.ADDRESS (bfSet (bfSet 0 16 16 0x05FA) 2 1 1) st

/-- Modelled from the spec: `register::XPSR.address` comes from the register
file in arm/core/mod.rs, which is not in src/; the DCRSR REGSEL number of
xPSR is 0b10000 (ARMv7-M C1.6.2). No claim depends on the numeric value. -/
def XPSR_REGSEL : Nat := 16

/-- Modelled from the spec: `register::PC.address`; the DCRSR REGSEL number
of the program counter is 0b01111. No claim depends on the numeric value. -/
def PC_REGSEL : Nat := 15

/-- m4.rs `reset_and_halt`: `XPSR_THUMB = 1 << 24`. -/
def XPSR_THUMB : Nat := 1 <<< 24

/-- m4.rs `M4::reset_and_halt`: enable C_DEBUGEN if it is clear, read DEMCR
and set VC_CORERESET if it is clear, request a system reset, wait for the
core to halt, force the XPSR Thumb bit if it reads back clear, write the
originally read DEMCR value back, and read the program counter. -/
def reset_and_halt (o : Oracle) (st : M4St) : Except ProbeError Nat × M4St :=
  let p := read_word_32 o Dhcsr.ADDRESS st
  let st :=
    if ¬ Dhcsr.c_debugen p.1 then
      write_word_32 Dhcsr.ADDRESS (Dhcsr.enable_write (bfSet 0 0 1 1)) p.2
    else p.2
  let q := read_word_32 o Demcr.ADDRESS st
  let demcr_val := q.1
  let st :=
    if ¬ Demcr.vc_corereset demcr_val then
      write_word_32 Demcr.ADDRESS (bfSet demcr_val 0 1 1) q.2
    else q.2
  let st := reset st
  match wait_for_core_halted o st with
  | (.error e, st) => (.error e, st)
  | (.ok _, st) =>
    match read_core_reg o XPSR_REGSEL st with
    | (.error e, st) => (.error e, st)
    | (.ok xpsr_value, st) =>
      let next :=
        if xpsr_value &&& XPSR_THUMB = 0 then
          write_core_reg o XPSR_REGSEL (xpsr_value ||| XPSR_THUMB) st
        else (.ok (), st)
      match next with
      | (.error e, st) => (.error e, st)
      | (.ok _, st) =>
        let st := write_word_32 Demcr.ADDRESS demcr_val st
        match read_core_reg o PC_REGSEL st with
        | (.error e, st) => (.error e, st)
        | (.ok pc_value, st) => (.ok pc_value, st)

/-- m4.rs `M4::set_breakpoint`: read FP_CTRL; REV 0 uses the
`FpRev1CompX` comparator encoding, REV 1 the `FpRev2CompX` encoding, any
other revision fails with `DebugProbeError::Unknown`; the encoded value is
written to the comparator register of the given unit. -/
def set_breakpoint (o : Oracle) (bp_unit_index addr : Nat) (st : M4St) :
    Except ProbeError Unit × M4St :=
  let p := read_word_32 o FpCtrl.ADDRESS st
  let st := p.2
  if FpCtrl.rev p.1 = 0 then
    (.ok (), write_word_32 (FpRev1CompX.ADDRESS + bp_unit_index * 4)
      (FpRev1CompX.breakpoint_configuration addr) st)
  else if FpCtrl.rev p.1 = 1 then
    (.ok (), write_word_32 (FpRev1CompX.ADDRESS + bp_unit_index * 4)
      (FpRev2CompX.breakpoint_configuration addr) st)
  else
    (.error .unknown, st)

/-- The number of DHCSR reads in a trace. -/
def dhcsrReadCount (tr : List MemEvent) : Nat :=
  tr.countP fun e => match e with
    | .read a _ => a == Dhcsr.ADDRESS
    | .write _ _ => false

/-- The values read at the given address, in the order of the trace
(most recent first). -/
def readsAt (address : Nat) (tr : List MemEvent) : List Nat :=
  tr.filterMap fun e => match e with
    | .read a v => if a == address then some v else none
    | .write _ _ => none

/-- The value of the most recent write at the given address, if any
(the trace lists the most recent event first). -/
def lastWriteAt (address : Nat) (tr : List MemEvent) : Option Nat :=
  tr.findSome? fun e => match e with
    | .write a v => if a == address then some v else none
    | .read _ _ => none

/- ### communication_interface.rs: the SELECT cache -/

/-- The SELECT-relevant part of `ArmCommunicationInterfaceState`:
`current_apsel`, `current_apbanksel` and `current_dpbanksel`, the values
last written to SELECT, cached to elide redundant SELECT writes. -/
structure SelectState where
  current_apsel : Nat
  current_apbanksel : Nat
  current_dpbanksel : Nat
deriving DecidableEq

/-- A write of the SELECT debug-port register emitted to the transport,
carrying the three fields APSEL, APBANKSEL and DPBANKSEL. -/
inductive SelectEvent
  | selectWrite (apsel apbanksel dpbanksel : Nat)
deriving DecidableEq

/-- communication_interface.rs `ArmCommunicationInterface::select_ap_and_ap_bank`:
update the cached `current_apsel` and `current_apbanksel` to the requested
values, and if either changed write SELECT with the full cached triple
(the DP bank field is set to the cached `current_dpbanksel` so it is not
disturbed). The nested `write_dp_register::<Select>` call is represented by
the emitted `selectWrite` event. -/
def select_ap_and_ap_bank (port ap_bank : Nat) (s : SelectState) :
    SelectState × List SelectEvent :=
  let p1 :=
    if s.current_apsel ≠ port then ({ s with current_apsel := port }, true)
    else (s, false)
  let p2 :=
    if p1.1.current_apbanksel ≠ ap_bank then
      ({ p1.1 with current_apbanksel := ap_bank }, true)
    else (p1.1, p1.2)
  if p2.2 then
    (p2.1, [.selectWrite p2.1.current_apsel p2.1.current_apbanksel p2.1.current_dpbanksel])
  else (p2.1, [])

/-- communication_interface.rs `ArmCommunicationInterface::select_dp_bank`:
for `DPBankSel::Bank(b)` (`some b` here), write SELECT with the full cached
triple if `b` differs from the cached `current_dpbanksel`, updating the
cache; `DPBankSel::DontCare` (`none`) does nothing. -/
def select_dp_bank (dp_bank : Option Nat) (s : SelectState) :
    SelectState × List SelectEvent :=
  match dp_bank with
  | some new_bank =>
    if new_bank ≠ s.current_dpbanksel then
      let s2 := { s with current_dpbanksel := new_bank }
      (s2, [.selectWrite s2.current_apsel s2.current_apbanksel s2.current_dpbanksel])
    else (s, [])
  | none => (s, [])

/-- One register access of a session, as it affects AP/bank selection: an AP
register access selects the port and AP bank of the register
(`read_ap_register` / `write_ap_register` and the repeated variants all call
`select_ap_and_ap_bank` first); a DP register access selects the DP bank of
the register (`read_dp_register` / `write_dp_register` call
`select_dp_bank`, with `none` for `DPBankSel::DontCare`). -/
inductive DapAccess
  | ap (port ap_bank : Nat)
  | dp (dp_bank : Option Nat)
deriving DecidableEq

/-- The selection step performed by one access. -/
def runAccess : DapAccess → SelectState → SelectState × List SelectEvent
  | .ap port ap_bank, s => select_ap_and_ap_bank port ap_bank s
  | .dp dp_bank, s => select_dp_bank dp_bank s

/-- The selection steps performed by a sequence of accesses, with the SELECT
writes they emit to the transport, in order. -/
def runAccesses : List DapAccess → SelectState → SelectState × List SelectEvent
  | [], s => (s, [])
  | a :: rest, s =>
    let p := runAccess a s
    let q := runAccesses rest p.1
    (q.1, p.2 ++ q.2)

/-- The `(apsel, apbanksel, dpbanksel)` tuple an access requires, given the
tuple required so far (a `DontCare` DP access and the fields an access does
not name keep their previous values). -/
def requiredTuple : DapAccess → SelectState → SelectState
  | .ap port ap_bank, s => { s with current_apsel := port, current_apbanksel := ap_bank }
  | .dp (some b), s => { s with current_dpbanksel := b }
  | .dp none, s => s

/-- The tuples required by a sequence of accesses, in order. -/
def requiredTuples : List DapAccess → SelectState → List SelectState
  | [], _ => []
  | a :: rest, s =>
    let s1 := requiredTuple a s
    s1 :: requiredTuples rest s1

/-- Collapse consecutive duplicates of a tuple sequence, also against the
initially selected tuple `prev`: the distinct tuples actually required, in
order. -/
def distinctTuples (prev : SelectState) : List SelectState → List SelectState
  | [] => []
  | s :: rest => if s = prev then distinctTuples prev rest else s :: distinctTuples s rest

/-- The SELECT write carrying the full tuple. -/
def SelectState.toEvent (s : SelectState) : SelectEvent :=
  .selectWrite s.current_apsel s.current_apbanksel s.current_dpbanksel

/- ### communication_interface.rs: DP register access and version gating -/

/-- dp.rs `DebugPortVersion` (not in src/, fields per the spec, section 3):
`{V0, V1, V2, Unsupported(u8)}`, latched from DPIDR. -/
inductive DebugPortVersion
  | v0
  | v1
  | v2
  | unsupported (raw : Nat)
deriving DecidableEq

/-- Modelled from the spec: the ordering used by the version gate
(`R::VERSION > state.debug_port_version` in dp.rs, not in src/). The spec
orders the versions V0 < V1 < V2; `Unsupported` compares above the
supported versions. -/
def DebugPortVersion.rank : DebugPortVersion → Nat
  | .v0 => 0
  | .v1 => 1
  | .v2 => 2
  | .unsupported _ => 3

/-- The comparison `a > b` on debug port versions. -/
def versionGt (a b : DebugPortVersion) : Bool := decide (b.rank < a.rank)

/-- The descriptor of a DP register type `R` as used by
`read_dp_register::<R>` / `write_dp_register::<R>`: its address, its DP bank
(`none` for `DPBankSel::DontCare`) and its minimum DP version
(`R::ADDRESS`, `R::DP_BANK`, `R::VERSION` in dp.rs). -/
structure DpRegisterDescriptor where
  address : Nat
  dp_bank : Option Nat
  version : DebugPortVersion
deriving DecidableEq

/-- dp.rs `DebugPortError::UnsupportedRegister` (the source also carries the
register name, a string; the latched version is kept here). -/
inductive DebugPortError
  | unsupportedRegister (version : DebugPortVersion)
deriving DecidableEq

/-- The transport operations a DP register access can issue: a SELECT write
(from the nested bank selection) or the read/write of the register itself at
`(DebugPort, R::ADDRESS)`. -/
inductive DpEvent
  | selectWrite (apsel apbanksel dpbanksel : Nat)
  | transportRead (address : Nat)
  | transportWrite (address value : Nat)
deriving DecidableEq

/-- The state `read_dp_register` / `write_dp_register` act on: the
`debug_port_version` latched from DPIDR and the SELECT cache. -/
structure DpState where
  debug_port_version : DebugPortVersion
  sel : SelectState
deriving DecidableEq

/-- A SELECT write as a transport event. -/
def liftSelect : SelectEvent → DpEvent
  | .selectWrite a b c => .selectWrite a b c

/-- communication_interface.rs `DPAccess::read_dp_register` for
`ArmCommunicationInterface`: fail with `UnsupportedRegister` when the
register requires a newer DP version than the latched one, else select the
DP bank of the register and read it from the transport (`response` is the
value the transport returns). The result triple is (result, state, the
transport events issued, in order). -/
def read_dp_register (R : DpRegisterDescriptor) (response : Nat) (st : DpState) :
    Except DebugPortError Nat × DpState × List DpEvent :=
  if versionGt R.version st.debug_port_version then
    (.error (.unsupportedRegister st.debug_port_version), st, [])
  else
    let p := select_dp_bank R.dp_bank st.sel
    (.ok response, { st with sel := p.1 },
      p.2.map liftSelect ++ [.transportRead R.address])

/-- communication_interface.rs `DPAccess::write_dp_register` for
`ArmCommunicationInterface`: fail with `UnsupportedRegister` when the
register requires a newer DP version than the latched one, else select the
DP bank of the register and write it on the transport. -/
def write_dp_register (R : DpRegisterDescriptor) (value : Nat) (st : DpState) :
    Except DebugPortError Unit × DpState × List DpEvent :=
  if versionGt R.version st.debug_port_version then
    (.error (.unsupportedRegister st.debug_port_version), st, [])
  else
    let p := select_dp_bank R.dp_bank st.sel
    (.ok (), { st with sel := p.1 },
      p.2.map liftSelect ++ [.transportWrite R.address value])

/- ### communication_interface.rs: read_ap_information -/

/-- ap.rs `APClass` (not in src/): only the MEMAP classification matters to
`read_ap_information`. -/
inductive APClass
  | undefined
  | memAp
deriving DecidableEq

/-- ap.rs `BaseaddrFormat` (not in src/): the format bit of the BASE
register, either the legacy format or the ADIv5 format. -/
inductive BaseaddrFormat
  | legacy
  | adiv5
deriving DecidableEq

/-- The fields of the BASE register as parsed by ap.rs (not in src/):
`Format`, `BASEADDR` (the field value of bits 31:12) and the present bit
`P`. -/
structure BaseRegister where
  Format : BaseaddrFormat
  BASEADDR : Nat
  P : Bool
deriving DecidableEq

/-- The fields of the BASE2 register as parsed by ap.rs (not in src/):
`BASEADDR`, a 32-bit value. -/
structure Base2Register where
  BASEADDR : Nat
deriving DecidableEq

/-- The AP registers `read_ap_information` reads: IDR, BASE, BASE2 and the
CSW write/read-back probe of `ap_supports_only_32bit_access`. -/
inductive ApRegisterRead
  | idr
  | base
  | base2
  | cswProbe
deriving DecidableEq

/-- communication_interface.rs `ApInformation`. -/
inductive ApInformation
  | memoryAp (port_number : Nat) (only_32bit_data_size : Bool) (debug_base_address : Nat)
  | other (port_number : Nat)
deriving DecidableEq

/-- communication_interface.rs `ArmCommunicationInterface::read_ap_information`,
as a function of the register values the target returns: read IDR; for a
MEMAP-class AP read BASE, read BASE2 and take the upper 32 bits of the debug
base address from it exactly when `BASE.Format == ADIv5`, or the low 32 bits
alone with `BASE.BASEADDR << 12` (a u32 shift), then probe the 8-bit data
capability through CSW (`only_32bit` is the probe result); any other class
yields `Other`. The second component lists the AP registers read, in
order. -/
def read_ap_information (port_number : Nat) (idr_class : APClass)
    (base : BaseRegister) (base2 : Base2Register) (only_32bit : Bool) :
    ApInformation × List ApRegisterRead :=
  if idr_class = .memAp then
    let p : Nat × List ApRegisterRead :=
      if base.Format = .adiv5 then
        ((base2.BASEADDR % 2 ^ 32) <<< 32, [.base2])
      else (0, [])
    let base_address := p.1 ||| ((base.BASEADDR <<< 12) % 2 ^ 32)
    (.memoryAp port_number only_32bit base_address,
      [ApRegisterRead.idr, ApRegisterRead.base] ++ p.2 ++ [ApRegisterRead.cswProbe])
  else
    (.other port_number, [ApRegisterRead.idr])

/- ### flash_writer.rs: the HEX-record flash programmer -/

/-- flash_writer.rs `write_bytes`: `NVMC_CONFIG = 0x4001E000 + 0x504`. -/
def NVMC_CONFIG : Nat := 0x4001E000 + 0x504

/-- flash_writer.rs `erase_page`: `NVMC_ERASEPAGE = 0x4001E000 + 0x508`. -/
def NVMC_ERASEPAGE : Nat := 0x4001E000 + 0x508

/-- flash_writer.rs `write_bytes`: `WEN = 0x1`. -/
def WEN : Nat := 0x1

/-- flash_writer.rs `erase_page`: `EEN = 0x2`. -/
def EEN : Nat := 0x2

/-- The probe operations the flash programmer issues. -/
inductive FlashEvent
  | write (address value : Nat)
  | writeBlock (address : Nat) (values : List Nat)
deriving DecidableEq

/-- ihex `Record` (external, fields per the spec, section 3): the HEX record
stream. Bytes and offsets are kept as Nat; `data` offsets are u16 values. -/
inductive HexRecord
  | data (offset : Nat) (value : List Nat)
  | endOfFile
  | extendedSegmentAddress (address : Nat)
  | startSegmentAddress
  | extendedLinearAddress (address : Nat)
  | startLinearAddress
deriving DecidableEq

/-- `value.chunks(4)` on the byte list of a Data record: chunks of four
bytes, the final chunk possibly shorter. -/
def chunks4 : List Nat → List (List Nat)
  | [] => []
  | [a] => [[a]]
  | [a, b] => [[a, b]]
  | [a, b, c] => [[a, b, c]]
  | a :: b :: c :: d :: rest => [a, b, c, d] :: chunks4 rest

/-- scroll `c.pread::<u32>(0)` on a chunk: the little-endian u32 at offset 0,
failing when fewer than four bytes are available. `write_bytes` turns that
failure into a panic through `.expect("This is a bug. Please report it.")`,
modelled as `none`. -/
def pread_u32_le : List Nat → Option Nat
  | a :: b :: c :: d :: _ =>
    some (a % 256 + b % 256 * 0x100 + c % 256 * 0x10000 + d % 256 * 0x1000000)
  | _ => none

/-- flash_writer.rs `write_bytes`: write `CONFIG = WEN`, then block-write the
bytes mapped chunk-by-chunk through `pread::<u32>`; `none` when any chunk
makes `pread` fail (the `.expect` panic). -/
def write_bytes (address : Nat) (data : List Nat) : Option (List FlashEvent) :=
  match (chunks4 data).mapM pread_u32_le with
  | none => none
  | some words => some [.write NVMC_CONFIG WEN, .writeBlock address words]

/-- flash_writer.rs `erase_page`: write `CONFIG = EEN` then `ERASEPAGE =
address`. The READY polling loop that follows only reads (it is unbounded
and driven by the target) and no claim concerns it, so it is not part of
the event list. -/
def erase_page (address : Nat) : List FlashEvent :=
  [.write NVMC_CONFIG EEN, .write NVMC_ERASEPAGE address]

/-- The record loop of flash_writer.rs `download_hex`, with the running
`extended_linear_address` (`ela`), `extended_segment_address` (`esa`, u16
arithmetic, parsed but never consumed) and the events issued so far (in
order, oldest first). The byte counter and the progress printing are
dropped. A Data record erases the page when `addr % page_size == 0` with
`addr = ela | offset`, then writes its bytes; `none` models the
`write_bytes` panic on a byte count that is not a multiple of four. -/
def download_hex_loop (page_size : Nat) :
    List HexRecord → Nat → Nat → List FlashEvent → Option (List FlashEvent)
  | [], _, _, evs => some evs
  | r :: rest, ela, esa, evs =>
    match r with
    | .data offset value =>
      let addr := ela ||| (offset % 0x10000)
      let evs := if addr % page_size = 0 then evs ++ erase_page addr else evs
      match write_bytes addr value with
      | none => none
      | some wevs => download_hex_loop page_size rest ela esa (evs ++ wevs)
    | .endOfFile => some evs
    | .extendedSegmentAddress address =>
      download_hex_loop page_size rest ela (address % 0x10000 * 16 % 0x10000) evs
    | .startSegmentAddress => download_hex_loop page_size rest ela esa evs
    | .extendedLinearAddress address =>
      download_hex_loop page_size rest ((address % 0x10000) <<< 16) esa evs
    | .startLinearAddress => download_hex_loop page_size rest ela esa evs

/-- flash_writer.rs `download_hex` on an already-parsed record stream:
`extended_segment_address` and `extended_linear_address` start at 0. -/
def download_hex (records : List HexRecord) (page_size : Nat) :
    Option (List FlashEvent) :=
  download_hex_loop page_size records 0 0 []

/-- No event of the list touches the given address. -/
def avoids (address : Nat) (l : List MemEvent) : Prop :=
  ∀ e ∈ l, e.address ≠ address

/-- A concrete initial machine state for concrete evaluations: cached state
Running, register file all zero, empty trace. -/
def st0 : M4St :=
  { core := { current_state := .running, hw_breakpoints_enabled := false }
    regs := fun _ => 0
    dcrdr := 0
    readCount := 0
    trace := [] }

/-- A target that answers every read with 0. -/
def oracleZero : Oracle := fun _ _ => 0

/-- A target whose DHCSR reads report S_HALT (bit 17) from the 100th read
on (read indices 99 and later) and whose other reads return 0. -/
def oracle99 : Oracle := fun n a =>
  if a = Dhcsr.ADDRESS ∧ 99 ≤ n then 0x20000 else 0

/-- A target whose DHCSR always reports S_HALT and whose DFSR reads 0. -/
def oracleHalt : Oracle := fun _ a =>
  if a = Dhcsr.ADDRESS then 0x20000 else 0

/-- A concrete machine state whose cached core state is Halted(BKPT). -/
def stHalted : M4St :=
  { st0 with core := { current_state := .halted .bkpt, hw_breakpoints_enabled := false } }

/-- A target on which `reset_and_halt` succeeds at once: DHCSR always
reports C_DEBUGEN, S_REGRDY and S_HALT (0x30001), DEMCR reads back with
VC_CORERESET already set, everything else reads 0. -/
def oracleRah : Oracle := fun _ a =>
  if a = Dhcsr.ADDRESS then 0x30001
  else if a = Demcr.ADDRESS then 1
  else 0

/- ### Theorems -/

/-- A number with a two-power bit set by conjunction has that bit set. -/
theorem testBit_of_and_two_pow_ne_zero {x n : Nat} (h : x &&& 2 ^ n ≠ 0) :
    x.testBit n = true := by
  by_contra hb
  apply h
  apply Nat.eq_of_testBit_eq
  intro i
  simp only [Nat.testBit_and, Nat.testBit_two_pow, Nat.zero_testBit]
  by_cases hi : n = i
  · subst hi
    simp [Bool.not_eq_true] at hb
    simp [hb]
  · simp [hi]

/-- Conjunction with a shifted mask is the shifted conjunction of the
shifted-down value with the mask. -/
theorem and_shiftLeft_comm (x m k : Nat) :
    x &&& (m <<< k) = ((x >>> k) &&& m) <<< k := by
  apply Nat.eq_of_testBit_eq
  intro i
  simp only [Nat.testBit_and, Nat.testBit_shiftLeft, Nat.testBit_shiftRight]
  by_cases h : k ≤ i
  · simp [h, Nat.add_sub_cancel' h]
  · simp [h]

/-- The comparator mask extraction is arithmetic truncation to the low
512 MiB followed by word truncation: bits 1:0 and bits above 28 are
dropped. -/
theorem and_comp_mask_eq_div_mod (a : Nat) :
    (a &&& 0x1FFFFFFC) >>> 2 = a / 4 % 2 ^ 27 := by
  have hm : (0x1FFFFFFC : Nat) = (2 ^ 27 - 1) <<< 2 := by decide
  rw [hm, and_shiftLeft_comm, Nat.shiftRight_eq_div_pow, Nat.shiftRight_eq_div_pow,
    Nat.shiftLeft_eq, Nat.and_pow_two_sub_one_eq_mod]
  norm_num

/-- An even 32-bit value is unchanged by conjunction with 0xFFFFFFFE. -/
theorem and_mask_even {y : Nat} (hy : y < 2 ^ 32) (he : y % 2 = 0) :
    y &&& 0xFFFFFFFE = y := by
  apply Nat.eq_of_testBit_eq
  intro i
  rw [Nat.testBit_and]
  have hm : (0xFFFFFFFE : Nat) = (2 ^ 31 - 1) <<< 1 := by decide
  match i with
  | 0 =>
    have h0 : y.testBit 0 = false := by
      simp only [Nat.testBit_zero]
      simp only [decide_eq_false_iff_not]
      omega
    simp [h0]
  | i + 1 =>
    by_cases h32 : i + 1 < 32
    · have hmb : (0xFFFFFFFE : Nat).testBit (i + 1) = true := by
        rw [hm, Nat.testBit_shiftLeft]
        simp only [Nat.testBit_two_pow_sub_one]
        have ha : 1 ≤ i + 1 := by omega
        simp [ha]
        omega
      simp [hmb]
    · have hyb : y.testBit (i + 1) = false := by
        apply Nat.testBit_lt_two_pow
        calc y < 2 ^ 32 := hy
          _ ≤ 2 ^ (i + 1) := Nat.pow_le_pow_right (by norm_num) (by omega)
      simp [hyb]

/-- The closed arithmetic form of the revision-0 comparator encoding: the
REPLACE choice in bit 30 or 31, the truncated comparator value in bits 28:2
and the enable bit. -/
theorem breakpoint_configuration_closed (a : Nat) :
    FpRev1CompX.breakpoint_configuration a
      = (if a &&& 0x3 = 0 then 2 ^ 30 else 2 ^ 31) + ((a &&& 0x1FFFFFFC) >>> 2) * 4 + 1 := by
  have hc : (a &&& 0x1FFFFFFC) >>> 2 < 2 ^ 27 := by
    rw [and_comp_mask_eq_div_mod]
    exact Nat.mod_lt _ (by norm_num)
  set c := (a &&& 0x1FFFFFFC) >>> 2 with hcdef
  have mxor : (0xFFFFFFFF : Nat) ^^^ ((2 ^ 27 - 1) <<< 2) = 0xE0000003 := by decide
  have mxor1 : (0xFFFFFFFF : Nat) ^^^ ((2 ^ 1 - 1) <<< 0) = 0xFFFFFFFE := by decide
  have middle : ∀ B : Nat, B = 2 ^ 30 ∨ B = 2 ^ 31 →
      bfSet (bfSet B 2 27 c) 0 1 1 = B + c * 4 + 1 := by
    intro B hB
    have e2 : bfSet B 2 27 c = B + c * 4 := by
      rw [bfSet, mxor]
      have m1 : B &&& 0xE0000003 = B := by
        rcases hB with hB | hB <;> subst hB <;> decide
      have m2 : c &&& (2 ^ 27 - 1) = c := Nat.and_pow_two_sub_one_of_lt_two_pow hc
      rw [m1, m2, Nat.shiftLeft_eq]
      have m3 : c * 2 ^ 2 < 2 ^ 30 := by omega
      rcases hB with hB | hB <;> subst hB
      · have m4 : (2 ^ 30 : Nat) = 2 ^ 30 * 1 := by ring
        rw [m4, ← Nat.mul_add_lt_is_or m3 1]
        ring
      · have m3b : c * 2 ^ 2 < 2 ^ 31 := by omega
        have m4 : (2 ^ 31 : Nat) = 2 ^ 31 * 1 := by ring
        rw [m4, ← Nat.mul_add_lt_is_or m3b 1]
        ring
    rw [e2, bfSet, mxor1]
    have m3 : (1 : Nat) &&& (2 ^ 1 - 1) = 1 := by decide
    have m2 : (B + c * 4) &&& 0xFFFFFFFE = B + c * 4 := by
      apply and_mask_even
      · rcases hB with hB | hB <;> subst hB <;> omega
      · rcases hB with hB | hB <;> subst hB <;> omega
    rw [m2, m3, Nat.shiftLeft_zero]
    have m4 : B + c * 4 = 2 ^ 1 * (B / 2 + c * 2) := by
      rcases hB with hB | hB <;> subst hB <;> omega
    rw [m4, ← Nat.mul_add_lt_is_or (by norm_num : (1 : Nat) < 2 ^ 1)]
  simp only [FpRev1CompX.breakpoint_configuration, ← hcdef]
  by_cases hal : a &&& 0x3 = 0
  · rw [if_pos hal, if_pos hal]
    have e1 : bfSet 0 30 2 0b01 = 2 ^ 30 := by decide
    rw [e1, middle (2 ^ 30) (Or.inl rfl)]
  · rw [if_neg hal, if_neg hal]
    have e1 : bfSet 0 30 2 0b10 = 2 ^ 31 := by decide
    rw [e1, middle (2 ^ 31) (Or.inr rfl)]

/-- The COMP field of the revision-0 encoding is always the address
truncated to the low 512 MiB, in words: bits above 28 are silently
dropped. -/
theorem comp_of_breakpoint_configuration (a : Nat) :
    FpRev1CompX.comp (FpRev1CompX.breakpoint_configuration a) = a / 4 % 2 ^ 27 := by
  rw [FpRev1CompX.comp, bfGet, breakpoint_configuration_closed,
    Nat.shiftRight_eq_div_pow, Nat.and_pow_two_sub_one_eq_mod, and_comp_mask_eq_div_mod]
  split <;> omega

/-- Claim C6: for every DP register descriptor whose minimum DP version
exceeds the version latched from DPIDR, both `read_dp_register` and
`write_dp_register` fail with `UnsupportedRegister`, leave the state
unchanged, and issue no transport operation at all (the event list is
empty, so the register is never touched on the wire). -/
theorem dp_register_version_gate (R : DpRegisterDescriptor) (response value : Nat)
    (st : DpState) (h : versionGt R.version st.debug_port_version = true) :
    read_dp_register R response st
      = (.error (.unsupportedRegister st.debug_port_version), st, [])
    ∧ write_dp_register R value st
      = (.error (.unsupportedRegister st.debug_port_version), st, []) := by
  constructor
  · rw [read_dp_register, if_pos h]
  · rw [write_dp_register, if_pos h]

/-- Witness for claim C6: the TARGETID-style register (minimum version V2,
address 0x4, bank 2) on a DP latched as V1 is refused without any transport
event. -/
theorem dp_register_version_gate_witness :
    versionGt DebugPortVersion.v2 DebugPortVersion.v1 = true
    ∧ read_dp_register ⟨0x4, some 2, .v2⟩ 0 ⟨.v1, ⟨0, 0, 0⟩⟩
        = (.error (.unsupportedRegister .v1), ⟨.v1, ⟨0, 0, 0⟩⟩, []) :=
  ⟨by decide,
    (dp_register_version_gate ⟨0x4, some 2, .v2⟩ 0 0 ⟨.v1, ⟨0, 0, 0⟩⟩ (by decide)).1⟩

/-- Claim C3 counterexample: for a MEMAP-class AP whose BASE register has
the legacy format with `BASEADDR == 0` and `P == 0`, `read_ap_information`
does not treat the component as absent: it returns a Memory AP (with debug
base address 0), and BASE2 is not read. -/
theorem read_ap_information_no_absent_case :
    read_ap_information 0 .memAp ⟨.legacy, 0, false⟩ ⟨0⟩ false
      = (.memoryAp 0 false 0, [.idr, .base, .cswProbe]) := by
  decide

/-- Claim C3 (amended): for every MEMAP-class AP, `read_ap_information`
returns a Memory AP whose debug base address has `BASE.BASEADDR << 12` (a
u32 shift) as its low 32 bits; BASE2 is read, and the upper 32 bits of the
debug base address are `BASE2.BASEADDR`, exactly when BASE reports the
(non-legacy) ADIv5 format, the only non-legacy format this version knows.
No BASE value is treated as absent. -/
theorem read_ap_information_memap (port : Nat) (base : BaseRegister)
    (base2 : Base2Register) (only_32bit : Bool) :
    ∃ d, read_ap_information port .memAp base base2 only_32bit
        = (.memoryAp port only_32bit d,
            [ApRegisterRead.idr, ApRegisterRead.base]
              ++ (if base.Format = .adiv5 then [ApRegisterRead.base2] else [])
              ++ [ApRegisterRead.cswProbe])
      ∧ d % 2 ^ 32 = (base.BASEADDR <<< 12) % 2 ^ 32
      ∧ d / 2 ^ 32 = (if base.Format = .adiv5 then base2.BASEADDR % 2 ^ 32 else 0) := by
  have h32 : (0 : Nat) < 2 ^ 32 := by norm_num
  by_cases hf : base.Format = .adiv5
  · refine ⟨(base2.BASEADDR % 2 ^ 32) <<< 32 ||| (base.BASEADDR <<< 12) % 2 ^ 32, ?_, ?_, ?_⟩
    · rw [read_ap_information, if_pos rfl, if_pos hf]
      simp [hf]
    all_goals
      have hb : (base.BASEADDR <<< 12) % 2 ^ 32 < 2 ^ 32 := Nat.mod_lt _ h32
      have hor : (base2.BASEADDR % 2 ^ 32) <<< 32 ||| (base.BASEADDR <<< 12) % 2 ^ 32
          = 2 ^ 32 * (base2.BASEADDR % 2 ^ 32) + (base.BASEADDR <<< 12) % 2 ^ 32 := by
        rw [Nat.shiftLeft_eq, Nat.mul_comm, ← Nat.mul_add_lt_is_or hb]
    · rw [hor]
      omega
    · rw [hor, if_pos hf]
      omega
  · refine ⟨0 ||| (base.BASEADDR <<< 12) % 2 ^ 32, ?_, ?_, ?_⟩
    · rw [read_ap_information, if_pos rfl, if_neg hf]
      simp [hf]
    · rw [Nat.zero_or]
      exact Nat.mod_mod_of_dvd _ dvd_rfl
    · rw [Nat.zero_or, if_neg hf]
      exact Nat.div_eq_of_lt (Nat.mod_lt _ h32)

/-- Claim C2 (code-bug evidence): a Data record whose byte count is not a
multiple of four makes the flash programmer fail (the `.expect` on
`pread::<u32>` panics on the final short chunk) instead of padding the final
chunk with 0xFF: `download_hex` on a three-byte record returns `none`. On a
record whose byte count is a multiple of four, the words are written with a
block write starting at `addr = linear | offset` (here
`linear = 1 << 16`, `offset = 4`, so `addr = 0x10004`). -/
theorem download_hex_short_record_panics :
    download_hex [.data 4 [0x20, 0x00, 0x00], .endOfFile] 4096 = none
    ∧ download_hex
        [.extendedLinearAddress 1, .data 4 [0x1D, 0x01, 0x00, 0x00], .endOfFile] 4096
      = some [.write NVMC_CONFIG WEN, .writeBlock 0x10004 [0x011D]] := by
  constructor
  · rfl
  · rfl

/-- One selection step: the cache ends at exactly the tuple the access
requires, and a SELECT write (carrying that full tuple) is emitted exactly
when the required tuple differs from the cached one. -/
theorem runAccess_eq (a : DapAccess) (s : SelectState) :
    runAccess a s
      = (requiredTuple a s,
          if requiredTuple a s = s then [] else [(requiredTuple a s).toEvent]) := by
  cases a with
  | ap port ap_bank =>
    cases s with
    | mk apsel apbanksel dpbanksel =>
      by_cases h1 : apsel = port <;> by_cases h2 : apbanksel = ap_bank <;>
        simp [runAccess, select_ap_and_ap_bank, requiredTuple, SelectState.toEvent,
          SelectState.mk.injEq, h1, h2] <;>
        split_ifs <;> simp_all
  | dp dp_bank =>
    cases dp_bank with
    | none => simp [runAccess, select_dp_bank, requiredTuple]
    | some new_bank =>
      cases s with
      | mk apsel apbanksel dpbanksel =>
        by_cases h : new_bank = dpbanksel <;>
          simp [runAccess, select_dp_bank, requiredTuple, SelectState.toEvent,
            SelectState.mk.injEq, h]

/-- Claim C4: SELECT elision. For every sequence of AP/DP register accesses
the SELECT writes emitted to the transport are exactly the distinct
`(apsel, apbanksel, dpbanksel)` tuples actually required, in order (a tuple
already selected, including the one cached at the start, is not re-written);
and each single access writes SELECT only when the tuple it requires differs
from the cached one, the write always carrying the full cached triple so the
fields the access does not name are not disturbed. -/
theorem select_elision :
    (∀ (accesses : List DapAccess) (s : SelectState),
        (runAccesses accesses s).2
          = (distinctTuples s (requiredTuples accesses s)).map SelectState.toEvent)
    ∧ (∀ (a : DapAccess) (s : SelectState),
        (runAccess a s).1 = requiredTuple a s
        ∧ (runAccess a s).2
            = if requiredTuple a s = s then [] else [(requiredTuple a s).toEvent]) := by
  constructor
  · intro accesses
    induction accesses with
    | nil => intro s; simp [runAccesses, requiredTuples, distinctTuples]
    | cons a rest ih =>
      intro s
      simp only [runAccesses, requiredTuples, distinctTuples, runAccess_eq]
      by_cases h : requiredTuple a s = s
      · rw [if_pos h, if_pos h, h, ih s]
        simp
      · rw [if_neg h, if_neg h, ih (requiredTuple a s)]
        simp [SelectState.toEvent]
  · intro a s
    rw [runAccess_eq]
    exact ⟨rfl, rfl⟩

/-- Claim C7: for every 32-bit word-aligned address `addr ≤ 0x1FFF_FFFC`,
the revision-0 comparator encoding used by `set_breakpoint` puts
`addr >> 2` in COMP, 0b01 in REPLACE and 1 in ENABLE, and round-trips
bit-exactly (`COMP << 2` recovers the address; 0x0800_09A4 encodes to
0x4800_09A5), while an address with `addr & 0x3 != 0` gets REPLACE 0b10. -/
theorem fpb_rev0_encoding (addr : Nat) (h4 : addr % 4 = 0)
    (hle : addr ≤ 0x1FFFFFFC) :
    FpRev1CompX.comp (FpRev1CompX.breakpoint_configuration addr) = addr >>> 2
    ∧ FpRev1CompX.replace (FpRev1CompX.breakpoint_configuration addr) = 0b01
    ∧ FpRev1CompX.enable (FpRev1CompX.breakpoint_configuration addr) = 1
    ∧ (FpRev1CompX.comp (FpRev1CompX.breakpoint_configuration addr)) <<< 2 = addr
    ∧ FpRev1CompX.breakpoint_configuration 0x080009A4 = 0x480009A5
    ∧ (∀ a : Nat, a &&& 0x3 ≠ 0 →
        FpRev1CompX.replace (FpRev1CompX.breakpoint_configuration a) = 0b10) := by
  have hal : addr &&& 0x3 = 0 := by
    have h3 : (0x3 : Nat) = 2 ^ 2 - 1 := by decide
    rw [h3, Nat.and_pow_two_sub_one_eq_mod]
    omega
  have hcomp : FpRev1CompX.comp (FpRev1CompX.breakpoint_configuration addr) = addr / 4 :=
    by rw [comp_of_breakpoint_configuration]; omega
  refine ⟨?_, ?_, ?_, ?_, by decide, ?_⟩
  · rw [hcomp, Nat.shiftRight_eq_div_pow]
  · rw [FpRev1CompX.replace, bfGet, breakpoint_configuration_closed, if_pos hal,
      and_comp_mask_eq_div_mod, Nat.shiftRight_eq_div_pow, Nat.and_pow_two_sub_one_eq_mod]
    omega
  · rw [FpRev1CompX.enable, bfGet, breakpoint_configuration_closed, if_pos hal,
      and_comp_mask_eq_div_mod, Nat.shiftRight_zero, Nat.and_pow_two_sub_one_eq_mod]
    omega
  · rw [hcomp, Nat.shiftLeft_eq]
    omega
  · intro a ha
    rw [FpRev1CompX.replace, bfGet, breakpoint_configuration_closed, if_neg ha,
      and_comp_mask_eq_div_mod, Nat.shiftRight_eq_div_pow, Nat.and_pow_two_sub_one_eq_mod]
    omega

/-- Witness for claim C7: the aligned address 0x0800_09A4 is within
0x1FFF_FFFC and its encoding has COMP `0x0800_09A4 >> 2`, REPLACE 0b01 and
ENABLE 1. -/
theorem fpb_rev0_encoding_witness :
    0x080009A4 % 4 = 0 ∧ 0x080009A4 ≤ 0x1FFFFFFC
    ∧ FpRev1CompX.comp (FpRev1CompX.breakpoint_configuration 0x080009A4)
        = 0x080009A4 >>> 2 :=
  ⟨by decide, by decide,
    (fpb_rev0_encoding 0x080009A4 (by decide) (by decide)).1⟩

/-- Claim C1 counterexample: `set_breakpoint` on an FPB whose FP_CTRL
revision is 0 does not fail for the address 0x2000_0000 (outside the low
512 MiB): it returns Ok and writes comparator value 0x4000_0001, which
encodes address 0 — the high address bits are silently dropped, and no
UnsupportedBreakpointAddress error exists in this code. -/
theorem set_breakpoint_high_address_succeeds :
    FpCtrl.rev (oracleZero 0 FpCtrl.ADDRESS) = 0
    ∧ (set_breakpoint oracleZero 0 0x20000000 st0).1 = .ok ()
    ∧ lastWriteAt FpRev1CompX.ADDRESS (set_breakpoint oracleZero 0 0x20000000 st0).2.trace
        = some 0x40000001 := by
  refine ⟨by decide, by rfl, by rfl⟩

/-- Claim C1 (amended): for every unit index and every address,
`set_breakpoint` on an FPB whose FP_CTRL revision reads as 0 succeeds: it
returns Ok and writes the revision-0 comparator encoding of the address to
the comparator register of the unit, whose COMP field holds only
`addr / 4 % 2^27` — the address truncated to the low 512 MiB — so for
`addr ≥ 0x2000_0000` the comparator silently encodes a different address;
only addresses in the low 512 MiB are representable in the revision-0
encoding, and no failure path for higher addresses exists. -/
theorem set_breakpoint_rev0_truncates (o : Oracle) (st : M4St)
    (bp_unit_index addr : Nat) (hunit : bp_unit_index < 128)
    (hrev : FpCtrl.rev (o st.readCount FpCtrl.ADDRESS) = 0) :
    (set_breakpoint o bp_unit_index addr st).1 = .ok ()
    ∧ (set_breakpoint o bp_unit_index addr st).2.trace
        = .write (FpRev1CompX.ADDRESS + bp_unit_index * 4)
            (FpRev1CompX.breakpoint_configuration addr)
          :: .read FpCtrl.ADDRESS (o st.readCount FpCtrl.ADDRESS) :: st.trace
    ∧ FpRev1CompX.comp (FpRev1CompX.breakpoint_configuration addr)
        = addr / 4 % 2 ^ 27 := by
  have hne : FpCtrl.ADDRESS ≠ Dcrdr.ADDRESS := by decide
  have hwr : FpRev1CompX.ADDRESS + bp_unit_index * 4 ≠ Dcrdr.ADDRESS := by
    show 0xE0002008 + bp_unit_index * 4 ≠ 0xE000EDF8
    omega
  have hwr2 : FpRev1CompX.ADDRESS + bp_unit_index * 4 ≠ Dcrsr.ADDRESS := by
    show 0xE0002008 + bp_unit_index * 4 ≠ 0xE000EDF4
    omega
  refine ⟨?_, ?_, comp_of_breakpoint_configuration addr⟩
  · rw [set_breakpoint, read_word_32, if_neg hne]
    simp [hrev]
  · rw [set_breakpoint, read_word_32, if_neg hne]
    simp only [hrev, if_true, eq_self_iff_true]
    rw [write_word_32, if_neg hwr, if_neg hwr2]

/-- Witness for claim C1 (amended): with a target whose FP_CTRL reads 0,
setting a breakpoint at 0x2000_0004 on unit 0 succeeds and the written
comparator encodes word 1 (address 4), not 0x2000_0004. -/
theorem set_breakpoint_rev0_truncates_witness :
    FpCtrl.rev (oracleZero 0 FpCtrl.ADDRESS) = 0
    ∧ (set_breakpoint oracleZero 0 0x20000004 st0).1 = .ok () :=
  ⟨by decide,
    (set_breakpoint_rev0_truncates oracleZero st0 0 0x20000004 (by decide) (by decide)).1⟩

/-- An oracle-served read: every address except DCRDR. -/
theorem read_word_32_oracle (o : Oracle) (address : Nat) (st : M4St)
    (h : address ≠ Dcrdr.ADDRESS) :
    read_word_32 o address st
      = (o st.readCount address,
          { st with readCount := st.readCount + 1,
                    trace := .read address (o st.readCount address) :: st.trace }) := by
  rw [read_word_32, if_neg h]

/-- A write to an address that is neither DCRDR nor DCRSR only extends the
trace. -/
theorem write_word_32_plain (address value : Nat) (st : M4St)
    (h1 : address ≠ Dcrdr.ADDRESS) (h2 : address ≠ Dcrsr.ADDRESS) :
    write_word_32 address value st
      = { st with trace := .write address value :: st.trace } := by
  simp only [write_word_32, if_neg h1, if_neg h2]

/-- The DHCSR read count added by a read event. -/
theorem dhcsrReadCount_cons_read (a v : Nat) (tr : List MemEvent) :
    dhcsrReadCount (.read a v :: tr)
      = dhcsrReadCount tr + (if a = Dhcsr.ADDRESS then 1 else 0) := by
  simp only [dhcsrReadCount, List.countP_cons]
  by_cases h : a = Dhcsr.ADDRESS <;> simp [h]

/-- A write event adds no DHCSR read. -/
theorem dhcsrReadCount_cons_write (a v : Nat) (tr : List MemEvent) :
    dhcsrReadCount (.write a v :: tr) = dhcsrReadCount tr := by
  simp [dhcsrReadCount, List.countP_cons]

/-- `status` reads DHCSR exactly once. -/
theorem status_dhcsr_count (o : Oracle) (st : M4St) :
    dhcsrReadCount (status o st).2.trace = dhcsrReadCount st.trace + 1 := by
  rw [status, read_word_32_oracle o _ st (by decide)]
  by_cases h1 : Dhcsr.s_sleep (o st.readCount Dhcsr.ADDRESS)
  · simp [h1, dhcsrReadCount_cons_read]
  · by_cases h2 : Dhcsr.s_halt (o st.readCount Dhcsr.ADDRESS)
    · simp only [h1, h2, if_false, if_true, Bool.false_eq_true]
      rw [read_word_32_oracle o _ _ (by decide),
        write_word_32_plain _ _ _ (by decide) (by decide)]
      split <;>
        simp [dhcsrReadCount_cons_read, dhcsrReadCount_cons_write,
          Dfsr.ADDRESS, Dhcsr.ADDRESS]
    · simp [h1, h2, dhcsrReadCount_cons_read]

/-- Claim C10: when the cached core state is Halted(r) and a `status` call
reads DHCSR with S_HALT set (and S_SLEEP clear) while the freshly read DFSR
decodes to the Unknown halt reason, `status` returns Halted(r), preserving
the previously recorded reason instead of replacing it with Unknown, and
leaves the cached state unchanged. -/
theorem status_preserves_halt_reason (o : Oracle) (st : M4St) (r : HaltReason)
    (hc : st.core.current_state = .halted r)
    (hs : Dhcsr.s_sleep (o st.readCount Dhcsr.ADDRESS) = false)
    (hh : Dhcsr.s_halt (o st.readCount Dhcsr.ADDRESS) = true)
    (hu : Dfsr.halt_reason (o (st.readCount + 1) Dfsr.ADDRESS) = .unknown) :
    (status o st).1 = .halted r
    ∧ (status o st).2.core.current_state = .halted r := by
  rw [status, read_word_32_oracle o _ st (by decide)]
  simp only [hs, hh, Bool.false_eq_true, if_false, if_true]
  rw [read_word_32_oracle o _ _ (by decide)]
  simp only []
  rw [write_word_32_plain _ _ _ (by decide) (by decide)]
  simp only [hu, hc, CoreStatus.is_halted, and_true, if_pos]

/-- Witness for claim C10: with the cached state Halted(BKPT), a halted
DHCSR and an all-clear DFSR, `status` reports Halted(BKPT). -/
theorem status_preserves_halt_reason_witness :
    stHalted.core.current_state = .halted .bkpt
    ∧ (status oracleHalt stHalted).1 = .halted .bkpt :=
  ⟨rfl,
    (status_preserves_halt_reason oracleHalt stHalted .bkpt rfl
      (by decide) (by decide) (by decide)).1⟩

/-- Claim C5: the cached core state enters Halted only when the DHCSR value
just read has S_HALT set (and after `status` the cached state, which is also
the returned status, agrees with the S_SLEEP/S_HALT flags of that fresh
DHCSR read: Sleeping iff S_SLEEP, Halted iff S_HALT and not S_SLEEP,
Running iff neither); `run` sets the cached state to Running optimistically,
with exactly one DHCSR write (value 0xA05F0001: the debug key, C_HALT=0,
C_DEBUGEN=1) and no read at all. -/
theorem halt_transitions_observed_run_optimistic :
    (∀ (o : Oracle) (st : M4St),
        ((status o st).2.core.current_state.is_halted = true →
          Dhcsr.s_halt (o st.readCount Dhcsr.ADDRESS) = true)
        ∧ (status o st).1 = (status o st).2.core.current_state
        ∧ ((status o st).2.core.current_state = .sleeping
            ↔ Dhcsr.s_sleep (o st.readCount Dhcsr.ADDRESS) = true)
        ∧ (status o st).2.core.current_state.is_halted
            = (!Dhcsr.s_sleep (o st.readCount Dhcsr.ADDRESS)
                && Dhcsr.s_halt (o st.readCount Dhcsr.ADDRESS))
        ∧ ((status o st).2.core.current_state = .running
            ↔ Dhcsr.s_sleep (o st.readCount Dhcsr.ADDRESS) = false
              ∧ Dhcsr.s_halt (o st.readCount Dhcsr.ADDRESS) = false))
    ∧ (∀ st : M4St,
        (run st).core.current_state = .running
        ∧ (run st).readCount = st.readCount
        ∧ (run st).trace = .write Dhcsr.ADDRESS 0xA05F0001 :: st.trace) := by
  constructor
  · intro o st
    rw [status, read_word_32_oracle o _ st (by decide)]
    by_cases h1 : Dhcsr.s_sleep (o st.readCount Dhcsr.ADDRESS)
    · simp [h1, CoreStatus.is_halted]
    · by_cases h2 : Dhcsr.s_halt (o st.readCount Dhcsr.ADDRESS)
      · simp only [h1, h2, Bool.false_eq_true, if_false, if_true]
        rw [read_word_32_oracle o _ _ (by decide)]
        simp only []
        rw [write_word_32_plain _ _ _ (by decide) (by decide)]
        by_cases h3 : st.core.current_state.is_halted = true
            ∧ Dfsr.halt_reason (o (st.readCount + 1) Dfsr.ADDRESS) = HaltReason.unknown
        · rw [if_pos h3]
          rcases hcs : st.core.current_state with _ | c <;>
            rw [hcs] at h3 <;> simp [CoreStatus.is_halted, h1, h2] at h3 ⊢
        · rw [if_neg h3]
          simp [CoreStatus.is_halted, h1, h2]
      · simp only [h1, h2, Bool.false_eq_true, if_false]
        simp [CoreStatus.is_halted, h1, h2]
  · intro st
    have hv : Dhcsr.enable_write (bfSet (bfSet 0 1 1 0) 0 1 1) = 0xA05F0001 := by decide
    rw [run, hv, write_word_32_plain _ _ _ (by decide) (by decide)]
    exact ⟨rfl, rfl, rfl⟩

/-- Witness for claim C5: with a target reporting S_HALT, the cached state
after `status` is halted, so the theorem yields that S_HALT was indeed set
on the observed read. -/
theorem halt_transitions_witness :
    Dhcsr.s_halt (oracleHalt st0.readCount Dhcsr.ADDRESS) = true :=
  (halt_transitions_observed_run_optimistic.1 oracleHalt st0).1 (by decide)

/-- The register-transfer polling loop reads DHCSR at most once per
iteration. -/
theorem wait_reg_loop_count (o : Oracle) (n : Nat) :
    ∀ st : M4St,
      dhcsrReadCount (wait_for_core_register_transfer_loop o n st).2.trace
        ≤ dhcsrReadCount st.trace + n := by
  induction n with
  | zero => intro st; simp [wait_for_core_register_transfer_loop]
  | succ n ih =>
    intro st
    rw [wait_for_core_register_transfer_loop, read_word_32_oracle o _ st (by decide)]
    by_cases h : Dhcsr.s_regrdy (o st.readCount Dhcsr.ADDRESS)
    · simp [h, dhcsrReadCount_cons_read]
    · simp only [h, Bool.false_eq_true, if_false]
      calc dhcsrReadCount (wait_for_core_register_transfer_loop o n _).2.trace
          ≤ dhcsrReadCount (MemEvent.read Dhcsr.ADDRESS
              (o st.readCount Dhcsr.ADDRESS) :: st.trace) + n := ih _
        _ ≤ dhcsrReadCount st.trace + (n + 1) := by
            rw [dhcsrReadCount_cons_read]
            simp
            omega

/-- If S_REGRDY is never seen in the next `n` DHCSR reads, the
register-transfer polling loop times out with the register-transfer
context after exactly `n` DHCSR reads. -/
theorem wait_reg_loop_timeout (o : Oracle) (n : Nat) :
    ∀ st : M4St,
      (∀ i, i < n → Dhcsr.s_regrdy (o (st.readCount + i) Dhcsr.ADDRESS) = false) →
      (wait_for_core_register_transfer_loop o n st).1
          = .error (.timeout "Waiting for core register transfer")
      ∧ (wait_for_core_register_transfer_loop o n st).2.readCount = st.readCount + n
      ∧ dhcsrReadCount (wait_for_core_register_transfer_loop o n st).2.trace
          = dhcsrReadCount st.trace + n := by
  induction n with
  | zero => intro st _; simp [wait_for_core_register_transfer_loop]
  | succ n ih =>
    intro st h
    rw [wait_for_core_register_transfer_loop, read_word_32_oracle o _ st (by decide)]
    have h0 : Dhcsr.s_regrdy (o st.readCount Dhcsr.ADDRESS) = false := by
      have := h 0 (by omega)
      simpa using this
    simp only [h0, Bool.false_eq_true, if_false]
    have hrec := ih ({ st with
        readCount := st.readCount + 1
        trace := MemEvent.read Dhcsr.ADDRESS (o st.readCount Dhcsr.ADDRESS) :: st.trace })
      (by intro i hi
          have := h (i + 1) (by omega)
          simpa [Nat.add_assoc, Nat.add_comm 1 i] using this)
    refine ⟨hrec.1, ?_, ?_⟩
    · rw [hrec.2.1]
      simp
      omega
    · rw [hrec.2.2, dhcsrReadCount_cons_read]
      simp
      omega

/-- The halted polling loop reads DHCSR at most `n` times, plus one more
read from the `status` call on the success path. -/
theorem wait_halt_loop_count (o : Oracle) (n : Nat) :
    ∀ st : M4St,
      dhcsrReadCount (wait_for_core_halted_loop o n st).2.trace
        ≤ dhcsrReadCount st.trace + n + 1 := by
  induction n with
  | zero => intro st; simp [wait_for_core_halted_loop]
  | succ n ih =>
    intro st
    rw [wait_for_core_halted_loop, read_word_32_oracle o _ st (by decide)]
    by_cases h : Dhcsr.s_halt (o st.readCount Dhcsr.ADDRESS)
    · simp only [h, if_true]
      rw [status_dhcsr_count, dhcsrReadCount_cons_read]
      simp
    · simp only [h, Bool.false_eq_true, if_false]
      calc dhcsrReadCount (wait_for_core_halted_loop o n _).2.trace
          ≤ dhcsrReadCount (MemEvent.read Dhcsr.ADDRESS
              (o st.readCount Dhcsr.ADDRESS) :: st.trace) + n + 1 := ih _
        _ ≤ dhcsrReadCount st.trace + (n + 1) + 1 := by
            rw [dhcsrReadCount_cons_read]
            simp
            omega

/-- If S_HALT is never seen in the next `n` DHCSR reads, the halted polling
loop times out with the halted-core context after exactly `n` DHCSR
reads. -/
theorem wait_halt_loop_timeout (o : Oracle) (n : Nat) :
    ∀ st : M4St,
      (∀ i, i < n → Dhcsr.s_halt (o (st.readCount + i) Dhcsr.ADDRESS) = false) →
      (wait_for_core_halted_loop o n st).1 = .error (.timeout "Waiting for halted core")
      ∧ (wait_for_core_halted_loop o n st).2.readCount = st.readCount + n
      ∧ dhcsrReadCount (wait_for_core_halted_loop o n st).2.trace
          = dhcsrReadCount st.trace + n := by
  induction n with
  | zero => intro st _; simp [wait_for_core_halted_loop]
  | succ n ih =>
    intro st h
    rw [wait_for_core_halted_loop, read_word_32_oracle o _ st (by decide)]
    have h0 : Dhcsr.s_halt (o st.readCount Dhcsr.ADDRESS) = false := by
      have := h 0 (by omega)
      simpa using this
    simp only [h0, Bool.false_eq_true, if_false]
    have hrec := ih ({ st with
        readCount := st.readCount + 1
        trace := MemEvent.read Dhcsr.ADDRESS (o st.readCount Dhcsr.ADDRESS) :: st.trace })
      (by intro i hi
          have := h (i + 1) (by omega)
          simpa [Nat.add_assoc, Nat.add_comm 1 i] using this)
    refine ⟨hrec.1, ?_, ?_⟩
    · rw [hrec.2.1]
      simp
      omega
    · rw [hrec.2.2, dhcsrReadCount_cons_read]
      simp
      omega

/-- Claim C9 counterexample: `wait_for_core_halted` is not bounded by 100
DHCSR reads: with a target that first reports S_HALT on the 100th poll, the
polling loop reads DHCSR 100 times and the `status` call on the success
path performs a 101st DHCSR read. -/
theorem wait_for_core_halted_reads_101 :
    (wait_for_core_halted oracle99 st0).1 = .ok ()
    ∧ dhcsrReadCount (wait_for_core_halted oracle99 st0).2.trace = 101 := by
  constructor
  · rfl
  · rfl

/-- Claim C9 (amended): `wait_for_core_register_transfer` reads DHCSR at
most 100 times and `wait_for_core_halted` at most 101 times (100 polling
reads plus one more from the `status` call on the success path); whenever
S_REGRDY (respectively S_HALT) is not observed within the 100 polling
reads, they fail with Timeout after exactly 100 DHCSR reads, the
register-transfer case carrying the context "Waiting for core register
transfer" and the halted case "Waiting for halted core". -/
theorem polling_loops_bounded (o : Oracle) (st : M4St) :
    dhcsrReadCount (wait_for_core_register_transfer o st).2.trace
        ≤ dhcsrReadCount st.trace + 100
    ∧ dhcsrReadCount (wait_for_core_halted o st).2.trace
        ≤ dhcsrReadCount st.trace + 101
    ∧ ((∀ i, i < 100 → Dhcsr.s_regrdy (o (st.readCount + i) Dhcsr.ADDRESS) = false) →
        (wait_for_core_register_transfer o st).1
            = .error (.timeout "Waiting for core register transfer")
        ∧ dhcsrReadCount (wait_for_core_register_transfer o st).2.trace
            = dhcsrReadCount st.trace + 100)
    ∧ ((∀ i, i < 100 → Dhcsr.s_halt (o (st.readCount + i) Dhcsr.ADDRESS) = false) →
        (wait_for_core_halted o st).1 = .error (.timeout "Waiting for halted core")
        ∧ dhcsrReadCount (wait_for_core_halted o st).2.trace
            = dhcsrReadCount st.trace + 100) := by
  refine ⟨wait_reg_loop_count o 100 st, wait_halt_loop_count o 100 st, ?_, ?_⟩
  · intro h
    have := wait_reg_loop_timeout o 100 st h
    exact ⟨this.1, this.2.2⟩
  · intro h
    have := wait_halt_loop_timeout o 100 st h
    exact ⟨this.1, this.2.2⟩

/-- Witness for claim C9 (amended): a target that never reports S_REGRDY or
S_HALT makes both loops fail with Timeout, each after exactly 100 DHCSR
reads from the empty trace. -/
theorem polling_loops_bounded_witness :
    (wait_for_core_register_transfer oracleZero st0).1
        = .error (.timeout "Waiting for core register transfer")
    ∧ (wait_for_core_halted oracleZero st0).1
        = .error (.timeout "Waiting for halted core") :=
  ⟨((polling_loops_bounded oracleZero st0).2.2.1
      (by intro i _; simp [oracleZero, Dhcsr.s_regrdy])).1,
    ((polling_loops_bounded oracleZero st0).2.2.2
      (by intro i _; simp [oracleZero, Dhcsr.s_halt])).1⟩

/-- The empty trace avoids every address. -/
theorem avoids_nil (a : Nat) : avoids a [] := by
  intro e he
  cases he

/-- Extending an avoiding trace with an event at a different address. -/
theorem avoids_cons {a : Nat} {e : MemEvent} {l : List MemEvent}
    (h1 : e.address ≠ a) (h2 : avoids a l) : avoids a (e :: l) := by
  intro x hx
  rcases List.mem_cons.mp hx with h | h
  · rw [h]
    exact h1
  · exact h2 _ h

/-- Extending an avoiding trace with a read at a different address. -/
theorem avoids_cons_read {a b v : Nat} {l : List MemEvent}
    (h1 : b ≠ a) (h2 : avoids a l) : avoids a (MemEvent.read b v :: l) :=
  avoids_cons h1 h2

/-- Extending an avoiding trace with a write at a different address. -/
theorem avoids_cons_write {a b v : Nat} {l : List MemEvent}
    (h1 : b ≠ a) (h2 : avoids a l) : avoids a (MemEvent.write b v :: l) :=
  avoids_cons h1 h2

/-- Concatenation of avoiding traces avoids. -/
theorem avoids_append {a : Nat} {l1 l2 : List MemEvent}
    (h1 : avoids a l1) (h2 : avoids a l2) : avoids a (l1 ++ l2) := by
  intro x hx
  rcases List.mem_append.mp hx with hx | hx
  · exact h1 _ hx
  · exact h2 _ hx

/-- The DCRSR selection word of a core-register read: REGWNR clear, REGSEL
the register number modulo the 7-bit field. -/
theorem dcrsr_read_val (addr : Nat) :
    bfSet (bfSet 0 16 1 0) 0 7 addr = addr % 128 := by
  have h1 : bfSet 0 16 1 0 = 0 := by decide
  rw [h1, bfSet, Nat.zero_and, Nat.zero_or, Nat.shiftLeft_zero,
    Nat.and_pow_two_sub_one_eq_mod]

/-- The read-selection word has REGWNR (bit 16) clear. -/
theorem dcrsr_read_val_testBit (addr : Nat) :
    (bfSet (bfSet 0 16 1 0) 0 7 addr).testBit 16 = false := by
  rw [dcrsr_read_val]
  exact Nat.testBit_lt_two_pow (by omega)

/-- The REGSEL field of the read-selection word. -/
theorem dcrsr_read_val_sel (addr : Nat) :
    bfGet (bfSet (bfSet 0 16 1 0) 0 7 addr) 0 7 = addr % 128 := by
  rw [dcrsr_read_val, bfGet, Nat.shiftRight_zero, Nat.and_pow_two_sub_one_eq_mod]
  omega

/-- The DCRSR selection word of a core-register write: REGWNR set, REGSEL
the register number modulo the 7-bit field. -/
theorem dcrsr_write_val (addr : Nat) :
    bfSet (bfSet 0 16 1 1) 0 7 addr = 2 ^ 16 + addr % 128 := by
  have h1 : bfSet 0 16 1 1 = 2 ^ 16 := by decide
  rw [h1, bfSet]
  have hx : (2 : Nat) ^ 16 &&& (0xFFFFFFFF ^^^ ((2 ^ 7 - 1) <<< 0)) = 2 ^ 16 := by decide
  rw [hx, Nat.shiftLeft_zero, Nat.and_pow_two_sub_one_eq_mod]
  have hlt : addr % 2 ^ 7 < 2 ^ 16 := by omega
  have h2 : (2 : Nat) ^ 16 = 2 ^ 16 * 1 := by ring
  rw [h2, ← Nat.mul_add_lt_is_or hlt 1]
  omega

/-- The write-selection word has REGWNR (bit 16) set. -/
theorem dcrsr_write_val_testBit (addr : Nat) :
    (bfSet (bfSet 0 16 1 1) 0 7 addr).testBit 16 = true := by
  rw [dcrsr_write_val, Nat.testBit_two_pow_add_eq]
  have h : (addr % 128).testBit 16 = false := Nat.testBit_lt_two_pow (by omega)
  simp [h]

/-- The REGSEL field of the write-selection word. -/
theorem dcrsr_write_val_sel (addr : Nat) :
    bfGet (bfSet (bfSet 0 16 1 1) 0 7 addr) 0 7 = addr % 128 := by
  rw [dcrsr_write_val, bfGet, Nat.shiftRight_zero, Nat.and_pow_two_sub_one_eq_mod]
  omega

/-- A DCRDR write stores the transfer value. -/
theorem write_word_32_dcrdr (value : Nat) (st : M4St) :
    write_word_32 Dcrdr.ADDRESS value st
      = { st with dcrdr := value,
                  trace := .write Dcrdr.ADDRESS value :: st.trace } := by
  simp [write_word_32]

/-- A DCRSR write with REGWNR clear loads DCRDR from the selected core
register. -/
theorem write_word_32_dcrsr_rsel (w : Nat) (st : M4St) (hb : w.testBit 16 = false) :
    write_word_32 Dcrsr.ADDRESS w st
      = { st with dcrdr := st.regs (bfGet w 0 7),
                  trace := .write Dcrsr.ADDRESS w :: st.trace } := by
  simp only [write_word_32, if_neg (by decide : Dcrsr.ADDRESS ≠ Dcrdr.ADDRESS),
    eq_self_iff_true, if_true, hb, Bool.false_eq_true, if_false]

/-- A DCRSR write with REGWNR set stores DCRDR into the selected core
register. -/
theorem write_word_32_dcrsr_wsel (w : Nat) (st : M4St) (hb : w.testBit 16 = true) :
    write_word_32 Dcrsr.ADDRESS w st
      = { st with regs := fun r => if r = bfGet w 0 7 then st.dcrdr else st.regs r,
                  trace := .write Dcrsr.ADDRESS w :: st.trace } := by
  simp only [write_word_32, if_neg (by decide : Dcrsr.ADDRESS ≠ Dcrdr.ADDRESS),
    eq_self_iff_true, if_true, hb]

/-- The register-transfer polling loop only reads DHCSR: the core state,
the register file and the transfer register are untouched, and the new
trace events never touch DEMCR. -/
theorem wait_reg_loop_frame (o : Oracle) (n : Nat) :
    ∀ st : M4St,
      (wait_for_core_register_transfer_loop o n st).2.core = st.core
      ∧ (wait_for_core_register_transfer_loop o n st).2.regs = st.regs
      ∧ (wait_for_core_register_transfer_loop o n st).2.dcrdr = st.dcrdr
      ∧ ∃ ext, (wait_for_core_register_transfer_loop o n st).2.trace = ext ++ st.trace
          ∧ avoids Demcr.ADDRESS ext := by
  induction n with
  | zero =>
    intro st
    exact ⟨rfl, rfl, rfl, [], rfl, avoids_nil _⟩
  | succ n ih =>
    intro st
    rw [wait_for_core_register_transfer_loop, read_word_32_oracle o _ st (by decide)]
    by_cases h : Dhcsr.s_regrdy (o st.readCount Dhcsr.ADDRESS)
    · rw [if_pos h]
      exact ⟨rfl, rfl, rfl,
        [MemEvent.read Dhcsr.ADDRESS (o st.readCount Dhcsr.ADDRESS)], rfl,
        avoids_cons_read (by decide) (avoids_nil _)⟩
    · rw [if_neg h]
      obtain ⟨hc, hr, hd, ext, htr, hav⟩ := ih ({ st with
        readCount := st.readCount + 1
        trace := MemEvent.read Dhcsr.ADDRESS (o st.readCount Dhcsr.ADDRESS) :: st.trace })
      refine ⟨hc, hr, hd,
        ext ++ [MemEvent.read Dhcsr.ADDRESS (o st.readCount Dhcsr.ADDRESS)], ?_, ?_⟩
      · rw [htr]
        simp
      · exact avoids_append hav (avoids_cons_read (by decide) (avoids_nil _))

/-- `status` only reads DHCSR and DFSR and clears DFSR: the register file
and the transfer register are untouched, and the new trace events never
touch DEMCR. -/
theorem status_frame (o : Oracle) (st : M4St) :
    (status o st).2.regs = st.regs
    ∧ (status o st).2.dcrdr = st.dcrdr
    ∧ ∃ ext, (status o st).2.trace = ext ++ st.trace ∧ avoids Demcr.ADDRESS ext := by
  rw [status, read_word_32_oracle o _ st (by decide)]
  by_cases h1 : Dhcsr.s_sleep (o st.readCount Dhcsr.ADDRESS)
  · rw [if_pos h1]
    exact ⟨rfl, rfl,
      [MemEvent.read Dhcsr.ADDRESS (o st.readCount Dhcsr.ADDRESS)], rfl,
      avoids_cons_read (by decide) (avoids_nil _)⟩
  · rw [if_neg h1]
    by_cases h2 : Dhcsr.s_halt (o st.readCount Dhcsr.ADDRESS)
    · rw [if_pos h2, read_word_32_oracle o _ _ (by decide)]
      simp only []
      rw [write_word_32_plain _ _ _ (by decide) (by decide)]
      split
      · exact ⟨rfl, rfl,
          [MemEvent.write Dfsr.ADDRESS Dfsr.clear_all,
            MemEvent.read Dfsr.ADDRESS (o (st.readCount + 1) Dfsr.ADDRESS),
            MemEvent.read Dhcsr.ADDRESS (o st.readCount Dhcsr.ADDRESS)], rfl,
          avoids_cons_write (by decide) (avoids_cons_read (by decide)
            (avoids_cons_read (by decide) (avoids_nil _)))⟩
      · exact ⟨rfl, rfl,
          [MemEvent.write Dfsr.ADDRESS Dfsr.clear_all,
            MemEvent.read Dfsr.ADDRESS (o (st.readCount + 1) Dfsr.ADDRESS),
            MemEvent.read Dhcsr.ADDRESS (o st.readCount Dhcsr.ADDRESS)], rfl,
          avoids_cons_write (by decide) (avoids_cons_read (by decide)
            (avoids_cons_read (by decide) (avoids_nil _)))⟩
    · rw [if_neg h2]
      exact ⟨rfl, rfl,
        [MemEvent.read Dhcsr.ADDRESS (o st.readCount Dhcsr.ADDRESS)], rfl,
        avoids_cons_read (by decide) (avoids_nil _)⟩

/-- The halted polling loop only reads DHCSR and runs `status`: the
register file and the transfer register are untouched, and the new trace
events never touch DEMCR. -/
theorem wait_halt_loop_frame (o : Oracle) (n : Nat) :
    ∀ st : M4St,
      (wait_for_core_halted_loop o n st).2.regs = st.regs
      ∧ (wait_for_core_halted_loop o n st).2.dcrdr = st.dcrdr
      ∧ ∃ ext, (wait_for_core_halted_loop o n st).2.trace = ext ++ st.trace
          ∧ avoids Demcr.ADDRESS ext := by
  induction n with
  | zero =>
    intro st
    exact ⟨rfl, rfl, [], rfl, avoids_nil _⟩
  | succ n ih =>
    intro st
    rw [wait_for_core_halted_loop, read_word_32_oracle o _ st (by decide)]
    by_cases h : Dhcsr.s_halt (o st.readCount Dhcsr.ADDRESS)
    · rw [if_pos h]
      obtain ⟨hr, hd, ext, htr, hav⟩ := status_frame o ({ st with
        readCount := st.readCount + 1
        trace := MemEvent.read Dhcsr.ADDRESS (o st.readCount Dhcsr.ADDRESS) :: st.trace })
      refine ⟨hr, hd,
        ext ++ [MemEvent.read Dhcsr.ADDRESS (o st.readCount Dhcsr.ADDRESS)], ?_, ?_⟩
      · rw [htr]
        simp
      · exact avoids_append hav (avoids_cons_read (by decide) (avoids_nil _))
    · rw [if_neg h]
      obtain ⟨hr, hd, ext, htr, hav⟩ := ih ({ st with
        readCount := st.readCount + 1
        trace := MemEvent.read Dhcsr.ADDRESS (o st.readCount Dhcsr.ADDRESS) :: st.trace })
      refine ⟨hr, hd,
        ext ++ [MemEvent.read Dhcsr.ADDRESS (o st.readCount Dhcsr.ADDRESS)], ?_, ?_⟩
      · rw [htr]
        simp
      · exact avoids_append hav (avoids_cons_read (by decide) (avoids_nil _))

/-- `read_core_reg` leaves the core register file and the cached core state
untouched, never touches DEMCR, and on success returns the value of the
selected core register. -/
theorem read_core_reg_spec (o : Oracle) (addr : Nat) (st : M4St) :
    (read_core_reg o addr st).2.regs = st.regs
    ∧ (read_core_reg o addr st).2.core = st.core
    ∧ (∃ ext, (read_core_reg o addr st).2.trace = ext ++ st.trace
        ∧ avoids Demcr.ADDRESS ext)
    ∧ (∀ v, (read_core_reg o addr st).1 = .ok v → v = st.regs (addr % 128)) := by
  rw [read_core_reg,
    write_word_32_dcrsr_rsel _ _ (dcrsr_read_val_testBit addr), dcrsr_read_val_sel]
  rcases hW : wait_for_core_register_transfer o ({ st with
      dcrdr := st.regs (addr % 128)
      trace := MemEvent.write Dcrsr.ADDRESS (bfSet (bfSet 0 16 1 0) 0 7 addr) :: st.trace })
    with ⟨res, stW⟩
  have hWf := wait_reg_loop_frame o 100 ({ st with
      dcrdr := st.regs (addr % 128)
      trace := MemEvent.write Dcrsr.ADDRESS (bfSet (bfSet 0 16 1 0) 0 7 addr) :: st.trace })
  rw [show wait_for_core_register_transfer_loop o 100 ({ st with
      dcrdr := st.regs (addr % 128)
      trace := MemEvent.write Dcrsr.ADDRESS (bfSet (bfSet 0 16 1 0) 0 7 addr) :: st.trace })
    = (res, stW) from hW] at hWf
  obtain ⟨hWc, hWr, hWd, ext, hWtr, hWav⟩ := hWf
  cases res with
  | error e =>
    simp only [hW]
    refine ⟨hWr, hWc, ⟨ext ++ [MemEvent.write Dcrsr.ADDRESS
        (bfSet (bfSet 0 16 1 0) 0 7 addr)], ?_, ?_⟩, ?_⟩
    · rw [hWtr]
      simp
    · exact avoids_append hWav (avoids_cons_write (by decide) (avoids_nil _))
    · intro v hv
      exact absurd hv (by simp)
  | ok u =>
    simp only [hW]
    rw [read_word_32, if_pos rfl]
    refine ⟨hWr, hWc, ⟨MemEvent.read Dcrdr.ADDRESS stW.dcrdr ::
        (ext ++ [MemEvent.write Dcrsr.ADDRESS (bfSet (bfSet 0 16 1 0) 0 7 addr)]), ?_, ?_⟩, ?_⟩
    · rw [hWtr]
      simp
    · exact avoids_cons_read (by decide)
        (avoids_append hWav (avoids_cons_write (by decide) (avoids_nil _)))
    · intro v hv
      have : stW.dcrdr = st.regs (addr % 128) := hWd
      simp at hv
      rw [← hv, this]

/-- `write_core_reg` updates exactly the selected core register (writing
happens before the polling loop, so the update is unconditional), leaves
the cached core state untouched and never touches DEMCR. -/
theorem write_core_reg_spec (o : Oracle) (addr value : Nat) (st : M4St) :
    (write_core_reg o addr value st).2.regs
        = (fun r => if r = addr % 128 then value else st.regs r)
    ∧ (write_core_reg o addr value st).2.core = st.core
    ∧ (∃ ext, (write_core_reg o addr value st).2.trace = ext ++ st.trace
        ∧ avoids Demcr.ADDRESS ext) := by
  rw [write_core_reg, write_word_32_dcrdr,
    write_word_32_dcrsr_wsel _ _ (dcrsr_write_val_testBit addr), dcrsr_write_val_sel]
  rcases hW : wait_for_core_register_transfer o ({ st with
      regs := fun r => if r = addr % 128 then value else st.regs r
      dcrdr := value
      trace := MemEvent.write Dcrsr.ADDRESS (bfSet (bfSet 0 16 1 1) 0 7 addr)
        :: MemEvent.write Dcrdr.ADDRESS value :: st.trace })
    with ⟨res, stW⟩
  have hWf := wait_reg_loop_frame o 100 ({ st with
      regs := fun r => if r = addr % 128 then value else st.regs r
      dcrdr := value
      trace := MemEvent.write Dcrsr.ADDRESS (bfSet (bfSet 0 16 1 1) 0 7 addr)
        :: MemEvent.write Dcrdr.ADDRESS value :: st.trace })
  rw [show wait_for_core_register_transfer_loop o 100 ({ st with
      regs := fun r => if r = addr % 128 then value else st.regs r
      dcrdr := value
      trace := MemEvent.write Dcrsr.ADDRESS (bfSet (bfSet 0 16 1 1) 0 7 addr)
        :: MemEvent.write Dcrdr.ADDRESS value :: st.trace })
    = (res, stW) from hW] at hWf
  obtain ⟨hWc, hWr, hWd, ext, hWtr, hWav⟩ := hWf
  simp only [hW]
  refine ⟨hWr, hWc, ⟨ext ++ [MemEvent.write Dcrsr.ADDRESS (bfSet (bfSet 0 16 1 1) 0 7 addr),
      MemEvent.write Dcrdr.ADDRESS value], ?_, ?_⟩⟩
  · rw [hWtr]
    simp
  · exact avoids_append hWav (avoids_cons_write (by decide)
      (avoids_cons_write (by decide) (avoids_nil _)))

/-- Reads at an address distribute over trace concatenation. -/
theorem readsAt_append (a : Nat) (l1 l2 : List MemEvent) :
    readsAt a (l1 ++ l2) = readsAt a l1 ++ readsAt a l2 := by
  simp [readsAt]

/-- A trace that avoids an address has no reads at it. -/
theorem readsAt_eq_nil_of_avoids {a : Nat} {l : List MemEvent} (h : avoids a l) :
    readsAt a l = [] := by
  rw [readsAt, List.filterMap_eq_nil_iff]
  intro e he
  have := h e he
  cases e with
  | read b v =>
    simp only [MemEvent.address] at this
    simp [this]
  | write b v => rfl

/-- A read at the address itself contributes its value. -/
theorem readsAt_cons_read_self (a v : Nat) (tr : List MemEvent) :
    readsAt a (.read a v :: tr) = v :: readsAt a tr := by
  simp [readsAt]

/-- A write contributes no read. -/
theorem readsAt_cons_write (a b v : Nat) (tr : List MemEvent) :
    readsAt a (.write b v :: tr) = readsAt a tr := by
  simp [readsAt]

/-- The most recent write at an address ignores a leading segment that
avoids the address. -/
theorem lastWriteAt_append_avoids {a : Nat} {l1 : List MemEvent} (l2 : List MemEvent)
    (h : avoids a l1) : lastWriteAt a (l1 ++ l2) = lastWriteAt a l2 := by
  rw [lastWriteAt, lastWriteAt, List.findSome?_append]
  have hnone : (l1.findSome? fun e => match e with
      | MemEvent.write b v => if b == a then some v else none
      | MemEvent.read _ _ => none) = none := by
    rw [List.findSome?_eq_none_iff]
    intro e he
    have := h e he
    cases e with
    | read b v => rfl
    | write b v =>
      simp only [MemEvent.address] at this
      simp [this]
  rw [hnone]
  rfl

/-- A write at the address itself is the most recent write. -/
theorem lastWriteAt_cons_write_self (a v : Nat) (tr : List MemEvent) :
    lastWriteAt a (.write a v :: tr) = some v := by
  simp [lastWriteAt, List.findSome?_cons]

/-- `wait_for_core_halted` never touches the register file, the transfer
register or DEMCR. -/
theorem wait_halt_frame (o : Oracle) (st : M4St) :
    (wait_for_core_halted o st).2.regs = st.regs
    ∧ (wait_for_core_halted o st).2.dcrdr = st.dcrdr
    ∧ ∃ ext, (wait_for_core_halted o st).2.trace = ext ++ st.trace
        ∧ avoids Demcr.ADDRESS ext :=
  wait_halt_loop_frame o 100 st

/-- First projection of an explicit pair (used to normalize the embedded
read results). -/
theorem pair_fst {A B : Type} (a : A) (b : B) : (a, b).1 = a := rfl

/-- Second projection of an explicit pair. -/
theorem pair_snd {A B : Type} (a : A) (b : B) : (a, b).2 = b := rfl

/-- Claim C8: whenever `reset_and_halt` returns successfully (on a fresh
trace), DEMCR was read exactly once — at the start of the call — and the
most recent DEMCR write carries exactly that value (DEMCR is restored to
its pre-call value, undoing the VC_CORERESET enable), and bit 24 (Thumb)
of the XPSR core register is set on return, having been written explicitly
if it read back clear. -/
theorem reset_and_halt_restores_demcr (o : Oracle) (st : M4St) (pc : Nat)
    (htr : st.trace = [])
    (h : (reset_and_halt o st).1 = .ok pc) :
    (∃ v, readsAt Demcr.ADDRESS (reset_and_halt o st).2.trace = [v]
        ∧ lastWriteAt Demcr.ADDRESS (reset_and_halt o st).2.trace = some v)
    ∧ ((reset_and_halt o st).2.regs XPSR_REGSEL).testBit 24 = true := by
  rw [reset_and_halt, read_word_32_oracle o _ st (by decide)] at h ⊢
  -- the optional C_DEBUGEN enable write
  obtain ⟨stA, hAeq, hAregs, hAdcrdr, eA, hAtrace, hAav⟩ :
      ∃ stA,
        (if ¬ Dhcsr.c_debugen (o st.readCount Dhcsr.ADDRESS) = true then
            write_word_32 Dhcsr.ADDRESS (Dhcsr.enable_write (bfSet 0 0 1 1))
              ({ st with readCount := st.readCount + 1
                         trace := MemEvent.read Dhcsr.ADDRESS
                           (o st.readCount Dhcsr.ADDRESS) :: st.trace })
          else
            ({ st with readCount := st.readCount + 1
                       trace := MemEvent.read Dhcsr.ADDRESS
                         (o st.readCount Dhcsr.ADDRESS) :: st.trace })) = stA
        ∧ stA.regs = st.regs ∧ stA.dcrdr = st.dcrdr
        ∧ ∃ eA, stA.trace = eA ++ st.trace ∧ avoids Demcr.ADDRESS eA := by
    by_cases hd : Dhcsr.c_debugen (o st.readCount Dhcsr.ADDRESS) = true
    · refine ⟨_, if_neg (by simp [hd]), rfl, rfl,
        [MemEvent.read Dhcsr.ADDRESS (o st.readCount Dhcsr.ADDRESS)], rfl,
        avoids_cons_read (by decide) (avoids_nil _)⟩
    · rw [if_pos hd, write_word_32_plain _ _ _ (by decide) (by decide)]
      refine ⟨_, rfl, rfl, rfl,
        [MemEvent.write Dhcsr.ADDRESS (Dhcsr.enable_write (bfSet 0 0 1 1)),
          MemEvent.read Dhcsr.ADDRESS (o st.readCount Dhcsr.ADDRESS)], rfl,
        avoids_cons_write (by decide)
          (avoids_cons_read (by decide) (avoids_nil _))⟩
  rw [hAeq] at h ⊢
  rw [read_word_32_oracle o _ stA (by decide)] at h ⊢
  -- the DEMCR read and the optional VC_CORERESET enable write
  obtain ⟨stC, hCeq, hCregs, hCdcrdr, eC, hCtrace, hCreads⟩ :
      ∃ stC,
        (if ¬ Demcr.vc_corereset (o stA.readCount Demcr.ADDRESS) = true then
            write_word_32 Demcr.ADDRESS
              (bfSet (o stA.readCount Demcr.ADDRESS) 0 1 1)
              ({ stA with readCount := stA.readCount + 1
                          trace := MemEvent.read Demcr.ADDRESS
                            (o stA.readCount Demcr.ADDRESS) :: stA.trace })
          else
            ({ stA with readCount := stA.readCount + 1
                        trace := MemEvent.read Demcr.ADDRESS
                          (o stA.readCount Demcr.ADDRESS) :: stA.trace })) = stC
        ∧ stC.regs = stA.regs ∧ stC.dcrdr = stA.dcrdr
        ∧ ∃ eC, stC.trace
              = eC ++ MemEvent.read Demcr.ADDRESS (o stA.readCount Demcr.ADDRESS) :: stA.trace
            ∧ readsAt Demcr.ADDRESS eC = [] := by
    by_cases hd : Demcr.vc_corereset (o stA.readCount Demcr.ADDRESS) = true
    · exact ⟨_, if_neg (by simp [hd]), rfl, rfl, [], rfl, rfl⟩
    · rw [if_pos hd, write_word_32_plain _ _ _ (by decide) (by decide)]
      exact ⟨_, rfl, rfl, rfl,
        [MemEvent.write Demcr.ADDRESS (bfSet (o stA.readCount Demcr.ADDRESS) 0 1 1)],
        rfl, rfl⟩
  rw [hCeq] at h ⊢
  simp only [pair_fst, pair_snd] at h ⊢
  rw [reset, write_word_32_plain _ _ _ (by decide) (by decide)] at h ⊢
  set dv := o stA.readCount Demcr.ADDRESS with hdv
  set stD : M4St := { stC with trace := MemEvent.write Aircr.ADDRESS (bfSet (bfSet 0 16 16 0x05FA) 2 1 1) :: stC.trace } with hstD
  rcases hW : wait_for_core_halted o stD with ⟨wres, stW⟩
  have hWf := wait_halt_frame o stD
  rw [hW] at hWf h
  simp only [pair_fst, pair_snd] at hWf
  obtain ⟨hWregs, hWdcrdr, eW, hWtrace, hWav⟩ := hWf
  cases wres with
  | error e => simp at h
  | ok u =>
    simp only [pair_fst, pair_snd] at h ⊢
    rcases hX : read_core_reg o XPSR_REGSEL stW with ⟨xres, stX⟩
    have specX := read_core_reg_spec o XPSR_REGSEL stW
    rw [hX] at specX h
    simp only [pair_fst, pair_snd] at specX
    obtain ⟨hXregs, hXcore, ⟨eX, hXtrace, hXav⟩, hXval⟩ := specX
    cases xres with
    | error e => simp at h
    | ok xv =>
      simp only [pair_fst, pair_snd] at h ⊢
      have hxv : xv = stW.regs XPSR_REGSEL := by
        have := hXval xv rfl
        rwa [show XPSR_REGSEL % 128 = XPSR_REGSEL from by decide] at this
      have hthumb : XPSR_THUMB = 2 ^ 24 := by decide
      by_cases ht : xv &&& XPSR_THUMB = 0
      · rw [if_pos ht] at h ⊢
        rcases hY : write_core_reg o XPSR_REGSEL (xv ||| XPSR_THUMB) stX with ⟨yres, stY⟩
        have specY := write_core_reg_spec o XPSR_REGSEL (xv ||| XPSR_THUMB) stX
        rw [hY] at specY h
        simp only [pair_fst, pair_snd] at specY
        obtain ⟨hYregs, hYcore, eY, hYtrace, hYav⟩ := specY
        cases yres with
        | error e => simp at h
        | ok v =>
          simp only [pair_fst, pair_snd] at h ⊢
          rw [write_word_32_plain _ _ _ (by decide) (by decide)] at h ⊢
          set stZ : M4St := { stY with trace := MemEvent.write Demcr.ADDRESS dv :: stY.trace } with hstZ
          rcases hP : read_core_reg o PC_REGSEL stZ with ⟨pres, stP⟩
          have specP := read_core_reg_spec o PC_REGSEL stZ
          rw [hP] at specP h
          simp only [pair_fst, pair_snd] at specP
          obtain ⟨hPregs, hPcore, ⟨eP, hPtrace, hPav⟩, _⟩ := specP
          cases pres with
          | error e => simp at h
          | ok pv =>
            simp only [pair_fst, pair_snd] at h ⊢
            constructor
            · refine ⟨dv, ?_, ?_⟩
              · rw [hPtrace]
                simp only [hYtrace, hXtrace, hWtrace, hstD]
                rw [readsAt_append, readsAt_eq_nil_of_avoids hPav]
                rw [readsAt_cons_write]
                rw [readsAt_append, readsAt_eq_nil_of_avoids hYav]
                rw [readsAt_append, readsAt_eq_nil_of_avoids hXav]
                rw [readsAt_append, readsAt_eq_nil_of_avoids hWav]
                rw [readsAt_cons_write]
                rw [hCtrace, readsAt_append, hCreads, readsAt_cons_read_self]
                rw [hAtrace, readsAt_append, readsAt_eq_nil_of_avoids hAav, htr]
                rfl
              · rw [hPtrace]
                rw [lastWriteAt_append_avoids _ hPav, lastWriteAt_cons_write_self]
            · rw [hPregs]
              simp only [hYregs]
              rw [show XPSR_REGSEL % 128 = XPSR_REGSEL from by decide]
              simp only [if_pos rfl]
              rw [hthumb]
              simp [Nat.testBit_or, Nat.testBit_two_pow_self]
              exact Or.inr (by decide)
      · rw [if_neg ht] at h ⊢
        simp only [pair_fst, pair_snd] at h ⊢
        rw [write_word_32_plain _ _ _ (by decide) (by decide)] at h ⊢
        set stZ : M4St := { stX with trace := MemEvent.write Demcr.ADDRESS dv :: stX.trace } with hstZ
        rcases hP : read_core_reg o PC_REGSEL stZ with ⟨pres, stP⟩
        have specP := read_core_reg_spec o PC_REGSEL stZ
        rw [hP] at specP h
        simp only [pair_fst, pair_snd] at specP
        obtain ⟨hPregs, hPcore, ⟨eP, hPtrace, hPav⟩, _⟩ := specP
        cases pres with
        | error e => simp at h
        | ok pv =>
          simp only [pair_fst, pair_snd] at h ⊢
          constructor
          · refine ⟨dv, ?_, ?_⟩
            · rw [hPtrace]
              simp only [hXtrace, hWtrace, hstD]
              rw [readsAt_append, readsAt_eq_nil_of_avoids hPav]
              rw [readsAt_cons_write]
              rw [readsAt_append, readsAt_eq_nil_of_avoids hXav]
              rw [readsAt_append, readsAt_eq_nil_of_avoids hWav]
              rw [readsAt_cons_write]
              rw [hCtrace, readsAt_append, hCreads, readsAt_cons_read_self]
              rw [hAtrace, readsAt_append, readsAt_eq_nil_of_avoids hAav, htr]
              rfl
            · rw [hPtrace]
              rw [lastWriteAt_append_avoids _ hPav, lastWriteAt_cons_write_self]
          · rw [hPregs]
            simp only [hXregs]
            have hbit : xv.testBit 24 = true := by
              apply testBit_of_and_two_pow_ne_zero
              rw [← hthumb]
              exact ht
            rw [← hxv]
            exact hbit

/-- Witness for claim C8: on a target where the reset sequence succeeds
immediately, `reset_and_halt` returns Ok and the Thumb bit of the XPSR core
register is set on return. -/
theorem reset_and_halt_restores_demcr_witness :
    st0.trace = [] ∧ (reset_and_halt oracleRah st0).1 = .ok 0
    ∧ ((reset_and_halt oracleRah st0).2.regs XPSR_REGSEL).testBit 24 = true :=
  ⟨rfl, by rfl, (reset_and_halt_restores_demcr oracleRah st0 0 rfl (by rfl)).2⟩

end ProbeRs
